import Mathlib

/-! Second-stage boot loader: boot orchestration, image container format and
M-PHY fixups.

A shallow embedding of three source files.

* `apps/secondstage/src/start.c`: `boot_control` and `bootrom_main`.  The loader
  runs once, single-threaded, and every decision it takes depends only on what
  its collaborators (chip API, transports, image loader) hand back.  A run is
  therefore modelled as a function from the collaborators' outcomes (`Env`) to
  the sequence of collaborator calls it performs (`List Event`), ending at the
  first non-returning call (`jump_to_image` or `halt_and_catch_fire`).
* `common/shared_inc/tftf.h`: the packed layouts of the container format, as
  lists of members, and the inline checks `is_section_hashed` and
  `is_section_out_of_range`.
* `chips/es2tsb/src/es2_unipro.c`: the two fixup tables and `es2_fixup_mphy`,
  as a function from what the attribute writes report to the calls made and
  the value returned.
-/

namespace Bootrom

/-- The status-word and boot-control constants `start.c` refers to.  Their
`#define`s live in headers outside the translated sources (`bootrom.h`,
`unipro.h`), so the embedding takes them as a parameter. -/
structure Consts where
  INIT_STATUS_OPERATING : Nat
  INIT_STATUS_SPI_BOOT_STARTED : Nat
  INIT_STATUS_TRUSTED_SPI_FLASH_BOOT_FINISHED : Nat
  INIT_STATUS_UNTRUSTED_SPI_FLASH_BOOT_FINISHED : Nat
  INIT_STATUS_UNIPRO_BOOT_STARTED : Nat
  INIT_STATUS_TRUSTED_UNIPRO_BOOT_FINISHED : Nat
  INIT_STATUS_UNTRUSTED_UNIPRO_BOOT_FINISHED : Nat
  INIT_STATUS_FALLLBACK_UNIPRO_BOOT_STARTED : Nat
  INIT_STATUS_FALLLBACK_TRUSTED_UNIPRO_BOOT_FINISHED : Nat
  INIT_STATUS_FALLLBACK_UNTRUSTED_UNIPRO_BOOT_FINISHED : Nat
  INIT_STATUS_FAILED : Nat
  INIT_STATUS_STATUS_MASK : Nat
  FORCE_UNIPRO_BOOT : Nat

/-- The two `data_load_ops` instances: `spi_ops` and `greybus_ops`. -/
inductive Medium where
  | spi
  | greybus
  deriving DecidableEq, Repr

/-- One collaborator call made by the loader, with the arguments it was given
and, where the callee returns something, the value it returned. -/
inductive Event where
  | chip_init
  | dbginit
  | init_last_error
  | crypto_init
  | dbgprint
  | dbgprintx32 (num : Nat)
  | get_2ndstage_cfgdata (rc : Int)
  | efuse_init (rc : Int)
  | tsb_get_ims
  | key_generation
  | chip_unipro_init
  | chip_get_boot_status (ret : Nat)
  | chip_unipro_attr_read (rc : Int) (val : Nat)
  | chip_advertise_boot_status (boot_status : Nat)
  | chip_advertise_boot_type (rc : Int)
  | init (ops : Medium) (rc : Int)
  | locate_ffff_element_on_storage (ops : Medium) (rc : Int)
  | load_tftf_image (ops : Medium) (rc : Int) (is_secure_image : Nat)
  | finish (ops : Medium) (valid : Bool) (is_secure_image : Nat) (rc : Int)
  | merge_errno_with_boot_status (boot_status : Nat) (ret : Nat)
  | efuse_rig_for_untrusted
  | chip_clear_image_loading_ram
  | greybus_init (rc : Int)
  | set_last_error
  | advertise_ready
  | jump_to_image
  | halt_and_catch_fire (boot_status : Nat)
  deriving DecidableEq, Repr

/-- What the collaborators hand back during one run.

* `*_load` is the pair (return code of `load_tftf_image`, value held by the
  caller's `is_secure_image` when the call returns);
* `*_finish valid is_secure_image` is the return code of `ops.finish`;
* `merge_errno_with_boot_status line s` is the result of the call written on
  source line `line` with argument `s` (the callee reads the last-error word,
  which other collaborators may change between calls). -/
structure Env where
  get_2ndstage_cfgdata : Int
  use_fake_ims : Nat
  efuse_init : Int
  chip_get_boot_status : Nat
  chip_unipro_attr_read : Int
  bootctrl : Nat
  chip_advertise_boot_type : Int
  spi_init : Int
  locate_ffff_element_on_storage : Int
  spi_load : Int × Nat
  spi_finish : Bool → Nat → Int
  greybus_init : Int
  greybus_ops_init : Int
  greybus_load : Int × Nat
  greybus_finish : Bool → Nat → Int
  merge_errno_with_boot_status : Nat → Nat → Nat

open Event

/-- `boot_control` (start.c:67-103).  Returns the calls made and the value
left in `*boot_from_spi`, or `none` when the function halts instead of
returning.  The argument is the value `*boot_from_spi` holds on entry. -/
def boot_control (c : Consts) (env : Env) (_boot_from_spi : Bool) :
    List Event × Option Bool :=
  let boot_status := c.INIT_STATUS_OPERATING
  let boot_from_spi := false
  let prev_boot_status := env.chip_get_boot_status
  let rc := env.chip_unipro_attr_read
  let bootctrl := env.bootctrl
  let t := [chip_get_boot_status prev_boot_status, chip_unipro_attr_read rc bootctrl]
  if rc ≠ 0 then
    (t ++ [halt_and_catch_fire boot_status], none)
  else if prev_boot_status &&& c.INIT_STATUS_FAILED ≠ 0 then
    (t ++ [halt_and_catch_fire boot_status], none)
  else
    let prev_boot_status := prev_boot_status &&& c.INIT_STATUS_STATUS_MASK
    let boot_from_spi :=
      if prev_boot_status = c.INIT_STATUS_TRUSTED_SPI_FLASH_BOOT_FINISHED ∨
          prev_boot_status = c.INIT_STATUS_UNTRUSTED_SPI_FLASH_BOOT_FINISHED then
        true
      else boot_from_spi
    let boot_from_spi :=
      if bootctrl &&& c.FORCE_UNIPRO_BOOT ≠ 0 then false else boot_from_spi
    (t, some boot_from_spi)

/-- `bootrom_main` from `greybus_init()` to the end (start.c:222-300), entered
with the listed values of the three locals.  `RUN_SPI_TEST` is 0, so the
service loop of lines 245-254 is compiled out. -/
def bootrom_main_unipro (c : Consts) (env : Env)
    (boot_from_spi fallback_boot_unipro : Bool) (boot_status : Nat) : List Event :=
  [greybus_init env.greybus_init] ++
  if env.greybus_init ≠ 0 then
    [set_last_error, halt_and_catch_fire boot_status]
  else if !boot_from_spi then
    let merged :=
      env.merge_errno_with_boot_status 234 c.INIT_STATUS_FALLLBACK_UNIPRO_BOOT_STARTED
    let boot_status :=
      if fallback_boot_unipro then merged else c.INIT_STATUS_UNIPRO_BOOT_STARTED
    (if fallback_boot_unipro then
        [merge_errno_with_boot_status c.INIT_STATUS_FALLLBACK_UNIPRO_BOOT_STARTED merged,
         dbgprintx32 boot_status]
      else []) ++
    [chip_advertise_boot_status boot_status,
     merge_errno_with_boot_status boot_status
       (env.merge_errno_with_boot_status 242 boot_status),
     dbgprintx32 (env.merge_errno_with_boot_status 242 boot_status),
     advertise_ready,
     dbgprint,
     init Medium.greybus env.greybus_ops_init] ++
    if env.greybus_ops_init ≠ 0 then
      [halt_and_catch_fire boot_status]
    else
      let is_secure_image := env.greybus_load.2
      [load_tftf_image Medium.greybus env.greybus_load.1 is_secure_image] ++
      if env.greybus_load.1 = 0 then
        [finish Medium.greybus true is_secure_image
           (env.greybus_finish true is_secure_image)] ++
        if env.greybus_finish true is_secure_image ≠ 0 then
          [halt_and_catch_fire boot_status]
        else
          let boot_status :=
            if is_secure_image ≠ 0 then
              (if fallback_boot_unipro then
                c.INIT_STATUS_FALLLBACK_TRUSTED_UNIPRO_BOOT_FINISHED
              else c.INIT_STATUS_TRUSTED_UNIPRO_BOOT_FINISHED)
            else
              (if fallback_boot_unipro then
                c.INIT_STATUS_FALLLBACK_UNTRUSTED_UNIPRO_BOOT_FINISHED
              else c.INIT_STATUS_UNTRUSTED_UNIPRO_BOOT_FINISHED)
          [merge_errno_with_boot_status boot_status
             (env.merge_errno_with_boot_status (if is_secure_image ≠ 0 then 268 else 275)
               boot_status),
           dbgprintx32
             (env.merge_errno_with_boot_status (if is_secure_image ≠ 0 then 268 else 275)
               boot_status)] ++
          (if is_secure_image ≠ 0 then [] else [efuse_rig_for_untrusted]) ++
          [chip_advertise_boot_status boot_status, jump_to_image]
      else
        [finish Medium.greybus false is_secure_image
           (env.greybus_finish false is_secure_image)] ++
        if env.greybus_finish false is_secure_image ≠ 0 then
          [halt_and_catch_fire boot_status]
        else
          [halt_and_catch_fire boot_status]
  else
    [halt_and_catch_fire boot_status]

/-- `bootrom_main` from the medium test to the end (start.c:170-300), entered
with the value `boot_control` left in `boot_from_spi`. -/
def bootrom_main_boot (c : Consts) (env : Env) (boot_from_spi : Bool) : List Event :=
  let boot_status := c.INIT_STATUS_OPERATING
  if boot_from_spi then
    [dbgprint,
     init Medium.spi env.spi_init,
     locate_ffff_element_on_storage Medium.spi env.locate_ffff_element_on_storage] ++
    if env.locate_ffff_element_on_storage = 0 then
      let boot_status := c.INIT_STATUS_SPI_BOOT_STARTED
      let is_secure_image := env.spi_load.2
      [chip_advertise_boot_status boot_status,
       load_tftf_image Medium.spi env.spi_load.1 is_secure_image] ++
      if env.spi_load.1 = 0 then
        let boot_status :=
          if is_secure_image ≠ 0 then c.INIT_STATUS_TRUSTED_SPI_FLASH_BOOT_FINISHED
          else c.INIT_STATUS_UNTRUSTED_SPI_FLASH_BOOT_FINISHED
        [finish Medium.spi true is_secure_image (env.spi_finish true is_secure_image),
         merge_errno_with_boot_status boot_status
           (env.merge_errno_with_boot_status (if is_secure_image ≠ 0 then 189 else 194)
             boot_status),
         dbgprintx32
           (env.merge_errno_with_boot_status (if is_secure_image ≠ 0 then 189 else 194)
             boot_status)] ++
        (if is_secure_image ≠ 0 then [] else [efuse_rig_for_untrusted]) ++
        [merge_errno_with_boot_status boot_status
           (env.merge_errno_with_boot_status 205 boot_status),
         chip_advertise_boot_status (env.merge_errno_with_boot_status 205 boot_status),
         jump_to_image]
      else
        [finish Medium.spi false 0 (env.spi_finish false 0),
         chip_clear_image_loading_ram] ++
        bootrom_main_unipro c env false true boot_status
    else
      [finish Medium.spi false 0 (env.spi_finish false 0),
       chip_clear_image_loading_ram] ++
      bootrom_main_unipro c env false true boot_status
  else
    bootrom_main_unipro c env boot_from_spi false boot_status

/-- `bootrom_main` from `tsb_get_ims` to the end (start.c:154-300). -/
def bootrom_main_keys (c : Consts) (env : Env) : List Event :=
  let boot_status := c.INIT_STATUS_OPERATING
  let boot_from_spi := true
  [tsb_get_ims, key_generation, chip_unipro_init] ++
  match boot_control c env boot_from_spi with
  | (tc, none) => tc
  | (tc, some boot_from_spi) =>
    tc ++
    [chip_advertise_boot_status boot_status,
     chip_advertise_boot_type env.chip_advertise_boot_type] ++
    if env.chip_advertise_boot_type ≠ 0 then
      [halt_and_catch_fire boot_status]
    else
      bootrom_main_boot c env boot_from_spi

/-- `bootrom_main` (start.c:119-300): the calls one run makes, in order.
`jump_to_image` and `halt_and_catch_fire` do not return, so the run stops at
the first of them. -/
def bootrom_main (c : Consts) (env : Env) : List Event :=
  let boot_status := c.INIT_STATUS_OPERATING
  [chip_init, dbginit, init_last_error, crypto_init, dbgprint,
   get_2ndstage_cfgdata env.get_2ndstage_cfgdata] ++
  if env.get_2ndstage_cfgdata = 0 then
    [dbgprint] ++
    if env.use_fake_ims ≠ 0 then
      [efuse_init env.efuse_init] ++
      if env.efuse_init ≠ 0 then
        [halt_and_catch_fire boot_status]
      else
        bootrom_main_keys c env
    else
      bootrom_main_keys c env
  else
    bootrom_main_keys c env

/-! ## Sample collaborator outcomes -/

/-- Modelled from the spec: one concrete assignment of the constants, whose
`#define`s are in headers outside the translated sources.  The status word
combines a coarse outcome with a low-order error code: here the failure flag is
bit 31, the outcome sits in bits 24..30 and the error code in the low 24 bits;
the force flag is bit 0 of the boot-control attribute.  It only serves to
evaluate the model on concrete runs: the theorems about `boot_control` and
`bootrom_main` hold for every assignment. -/
def sampleConsts : Consts where
  INIT_STATUS_OPERATING := 0x00000000
  INIT_STATUS_SPI_BOOT_STARTED := 0x01000000
  INIT_STATUS_TRUSTED_SPI_FLASH_BOOT_FINISHED := 0x02000000
  INIT_STATUS_UNTRUSTED_SPI_FLASH_BOOT_FINISHED := 0x03000000
  INIT_STATUS_UNIPRO_BOOT_STARTED := 0x06000000
  INIT_STATUS_TRUSTED_UNIPRO_BOOT_FINISHED := 0x07000000
  INIT_STATUS_UNTRUSTED_UNIPRO_BOOT_FINISHED := 0x08000000
  INIT_STATUS_FALLLBACK_UNIPRO_BOOT_STARTED := 0x09000000
  INIT_STATUS_FALLLBACK_TRUSTED_UNIPRO_BOOT_FINISHED := 0x0a000000
  INIT_STATUS_FALLLBACK_UNTRUSTED_UNIPRO_BOOT_FINISHED := 0x0b000000
  INIT_STATUS_FAILED := 0x80000000
  INIT_STATUS_STATUS_MASK := 0x7f000000
  FORCE_UNIPRO_BOOT := 0x00000001

/-- A run's collaborators, all succeeding: no config data, previous boot was a
trusted flash boot, no force flag, a signed image on flash.  The other sample
runs are obtained from it by changing single outcomes. -/
def sampleEnv : Env where
  get_2ndstage_cfgdata := 1
  use_fake_ims := 0
  efuse_init := 0
  chip_get_boot_status := 0x02000000
  chip_unipro_attr_read := 0
  bootctrl := 0
  chip_advertise_boot_type := 0
  spi_init := 0
  locate_ffff_element_on_storage := 0
  spi_load := (0, 1)
  spi_finish := fun _ _ => 0
  greybus_init := 0
  greybus_ops_init := 0
  greybus_load := (0, 1)
  greybus_finish := fun _ _ => 0
  merge_errno_with_boot_status := fun _ s => s

/-! ## Predicates and observations on runs used by the statements below -/

/-- Is the call `jump_to_image`? -/
def isJump : Event → Bool
  | jump_to_image => true
  | _ => false

/-- Is the call `efuse_rig_for_untrusted`? -/
def isRig : Event → Bool
  | efuse_rig_for_untrusted => true
  | _ => false

/-- Is the call `halt_and_catch_fire`? -/
def isHalt : Event → Bool
  | halt_and_catch_fire _ => true
  | _ => false

/-- Is the call `load_tftf_image`? -/
def isLoad : Event → Bool
  | load_tftf_image _ _ _ => true
  | _ => false

/-- The calls made strictly before the first call satisfying `p` (the whole
run when there is none). -/
def callsBefore (p : Event → Bool) (t : List Event) : List Event :=
  t.takeWhile (fun e => !p e)

/-- The calls made strictly after the first call satisfying `p` (none when
there is no such call). -/
def callsAfter (p : Event → Bool) (t : List Event) : List Event :=
  (t.dropWhile (fun e => !p e)).drop 1

/-- The medium, return code and reported trust flag of a `load_tftf_image`
call; `none` for any other call. -/
def loadOf : Event → Option (Medium × Int × Nat)
  | load_tftf_image m rc s => some (m, rc, s)
  | _ => none

/-- The last `load_tftf_image` call of a run: medium, return code and the
trust flag it reported. -/
def lastLoad (t : List Event) : Option (Medium × Int × Nat) :=
  (t.filterMap loadOf).getLast?

/-- The property of C2, for any sequence of calls. -/
def RigOnceBeforeJump (t : List Event) : Prop :=
  t.countP isRig ≤ 1 ∧
  t.countP isJump ≤ 1 ∧
  (efuse_rig_for_untrusted ∈ t →
    efuse_rig_for_untrusted ∈ callsBefore isJump t ∧ jump_to_image ∈ t) ∧
  efuse_rig_for_untrusted ∉ callsAfter isJump t ∧
  (∀ s, halt_and_catch_fire s ∈ t → efuse_rig_for_untrusted ∉ t)

/-- A sequence of calls that ends in its only non-returning call: either one
`jump_to_image`, last, and no halt; or one `halt_and_catch_fire`, last, and no
jump. -/
def EndsInJumpOrHalt (t : List Event) : Prop :=
  ([jump_to_image] <:+ t ∧ t.countP isJump = 1 ∧ ∀ st, halt_and_catch_fire st ∉ t) ∨
  (∃ st, [halt_and_catch_fire st] <:+ t ∧ jump_to_image ∉ t ∧ t.countP isHalt = 1)

/-- Is the call a `load_tftf_image` that returned 0? -/
def isLoadOk : Event → Bool
  | load_tftf_image _ rc _ => rc == 0
  | _ => false

/-- The first half of C3, for any sequence of calls: if it contains the jump,
its last load returned 0, and the medium of that load was set up for a launch
(element located on flash; transfer finished with success on the fabric). -/
def LaunchAfterLoad (t : List Event) : Prop :=
  jump_to_image ∈ t →
    (∃ s, lastLoad t = some (Medium.spi, 0, s) ∧
      locate_ffff_element_on_storage Medium.spi 0 ∈ t) ∨
    (∃ s, lastLoad t = some (Medium.greybus, 0, s) ∧
      finish Medium.greybus true s 0 ∈ t)

/-- Is the call `load_tftf_image(&greybus_ops, ...)`? -/
def isGreybusLoad : Event → Bool
  | load_tftf_image Medium.greybus _ _ => true
  | _ => false

/-- Is the call `load_tftf_image(&spi_ops, ...)`? -/
def isSpiLoad : Event → Bool
  | load_tftf_image Medium.spi _ _ => true
  | _ => false

/-- The amended fallback property of C4, for any sequence of calls made under
the collaborator outcomes `env`. -/
def FallbackProp (env : Env) (t : List Event) : Prop :=
  (init Medium.spi env.spi_init ∈ t →
    (env.locate_ffff_element_on_storage ≠ 0 ∨ env.spi_load.1 ≠ 0) →
      (env.greybus_init = 0 ∧ env.greybus_ops_init = 0 →
        (callsBefore isHalt t).countP isGreybusLoad = 1) ∧
      (¬(env.greybus_init = 0 ∧ env.greybus_ops_init = 0) →
        t.countP isGreybusLoad = 0 ∧ jump_to_image ∉ t)) ∧
  t.countP isSpiLoad ≤ 1 ∧
  t.countP isGreybusLoad ≤ 1 ∧
  (∀ rc s, rc ≠ 0 → load_tftf_image Medium.greybus rc s ∈ t →
    (callsAfter isGreybusLoad t).all (fun e => !isLoad e) = true ∧ jump_to_image ∉ t)

/-- Flash chosen, element not found on flash, fabric bring-up fine, fabric load
succeeds. -/
def fallbackEnv : Env :=
  { sampleEnv with locate_ffff_element_on_storage := 1 }

/-- Flash chosen, element not found on flash, and `greybus_init` fails. -/
def fallbackNoFabricEnv : Env :=
  { sampleEnv with locate_ffff_element_on_storage := 1, greybus_init := 1 }

/-- Is the call `spi_ops.finish(false, ...)`, the shutdown after a failed flash
attempt? -/
def isSpiAbort : Event → Bool
  | finish Medium.spi false _ _ => true
  | _ => false

/-- Did the run give up on a flash attempt? -/
def flashFailed (t : List Event) : Bool :=
  t.any isSpiAbort

/-- The terminal status of a flash launch, before `merge_errno_with_boot_status`. -/
def spiFinished (c : Consts) (is_secure_image : Nat) : Nat :=
  if is_secure_image ≠ 0 then c.INIT_STATUS_TRUSTED_SPI_FLASH_BOOT_FINISHED
  else c.INIT_STATUS_UNTRUSTED_SPI_FLASH_BOOT_FINISHED

/-- The terminal status of a fabric launch: the plain value, replaced by its
`FALLLBACK` variant when `fallback` holds. -/
def uniproFinished (c : Consts) (fallback : Bool) (is_secure_image : Nat) : Nat :=
  if fallback then
    (if is_secure_image ≠ 0 then c.INIT_STATUS_FALLLBACK_TRUSTED_UNIPRO_BOOT_FINISHED
     else c.INIT_STATUS_FALLLBACK_UNTRUSTED_UNIPRO_BOOT_FINISHED)
  else
    (if is_secure_image ≠ 0 then c.INIT_STATUS_TRUSTED_UNIPRO_BOOT_FINISHED
     else c.INIT_STATUS_UNTRUSTED_UNIPRO_BOOT_FINISHED)

/-- The property of C6, for any sequence of calls. -/
def LaunchStatus (c : Consts) (t : List Event) : Prop :=
  jump_to_image ∈ t →
    (∃ s v, lastLoad t = some (Medium.spi, 0, s) ∧
      [merge_errno_with_boot_status (spiFinished c s) v,
       chip_advertise_boot_status v, jump_to_image] <:+ t) ∨
    (∃ s, lastLoad t = some (Medium.greybus, 0, s) ∧
      [chip_advertise_boot_status (uniproFinished c (flashFailed t) s), jump_to_image] <:+ t)

/-- Flash chosen, flash load fails, the fabric delivers an unsigned image. -/
def fallbackUntrustedEnv : Env :=
  { sampleEnv with spi_load := (1, 0), greybus_load := (0, 0) }

/-- The property of C7, for any sequence of calls made under `env`: if the
flash transport was initialised and the flash attempt fails, the calls contain
`spi_ops.finish(false, false)`, no halt precedes it, and what follows it is
`chip_clear_image_loading_ram` and then the fabric part of `bootrom_main`
entered with `boot_from_spi` false and `fallback_boot_unipro` true. -/
def FlashFallback (c : Consts) (env : Env) (t : List Event) : Prop :=
  init Medium.spi env.spi_init ∈ t →
    (env.locate_ffff_element_on_storage ≠ 0 ∨ env.spi_load.1 ≠ 0) →
      finish Medium.spi false 0 (env.spi_finish false 0) ∈ t ∧
      (callsBefore isSpiAbort t).all (fun e => !isHalt e) = true ∧
      ∃ boot_status,
        callsAfter isSpiAbort t =
          chip_clear_image_loading_ram :: bootrom_main_unipro c env false true boot_status

/-- Is the call `spi_ops.init()`? -/
def isSpiInit : Event → Bool
  | init Medium.spi _ => true
  | _ => false

/-- Flash chosen, `spi_ops.init()` returns -1, every later collaborator
succeeds. -/
def spiInitFailsEnv : Env :=
  { sampleEnv with spi_init := -1 }

/-- Is the call `efuse_init`? -/
def isEfuseInit : Event → Bool
  | efuse_init _ => true
  | _ => false

/-- Is the call `chip_unipro_attr_read` (of `DME_ARA_BOOT_CONTROL`)? -/
def isAttrRead : Event → Bool
  | chip_unipro_attr_read _ _ => true
  | _ => false

/-- Is the call `chip_advertise_boot_type`? -/
def isBootType : Event → Bool
  | chip_advertise_boot_type _ => true
  | _ => false

/-- Is the call `greybus_init`? -/
def isGreybusInit : Event → Bool
  | greybus_init _ => true
  | _ => false

/-- Is the call `greybus_ops.init()`? -/
def isGreybusOpsInit : Event → Bool
  | init Medium.greybus _ => true
  | _ => false

/-- Does the call bring a transport up (`spi_ops.init`, `greybus_init`,
`greybus_ops.init`)? -/
def isTransportInit : Event → Bool
  | init _ _ => true
  | greybus_init _ => true
  | _ => false

/-- Is the call one of the steps made before the medium test of line 170
(`efuse_init`, `key_generation`, `chip_get_boot_status`,
`chip_unipro_attr_read`, `chip_advertise_boot_type`)? -/
def isSetup : Event → Bool
  | efuse_init _ => true
  | key_generation => true
  | chip_get_boot_status _ => true
  | chip_unipro_attr_read _ _ => true
  | chip_advertise_boot_type _ => true
  | _ => false

/-- The status passed to `chip_advertise_boot_status`; `none` for any other
call. -/
def advertisedOf : Event → Option Nat
  | chip_advertise_boot_status s => some s
  | _ => none

/-- The status most recently advertised in a sequence of calls. -/
def lastAdvertised (t : List Event) : Option Nat :=
  (t.filterMap advertisedOf).getLast?

/-- The status word as an observer knows it: the last value advertised, or
`INIT_STATUS_OPERATING` when none has been yet. -/
def currentStatus (c : Consts) (t : List Event) : Nat :=
  (lastAdvertised t).getD c.INIT_STATUS_OPERATING

/-- The last two parts of C9, for any sequence of calls. -/
def FabricFatal (c : Consts) (t : List Event) : Prop :=
  (∀ rc, rc ≠ 0 → greybus_init rc ∈ t →
    callsAfter isGreybusInit t = [set_last_error, halt_and_catch_fire (currentStatus c t)]) ∧
  (∀ rc, rc ≠ 0 → init Medium.greybus rc ∈ t →
    callsAfter isGreybusOpsInit t = [halt_and_catch_fire (currentStatus c t)])

/-- The parts of C9 about the steps between key generation and the medium
test, for any sequence of calls. -/
def SetupFatal (c : Consts) (t : List Event) : Prop :=
  (∀ rc v, rc ≠ 0 → chip_unipro_attr_read rc v ∈ t →
    callsAfter isAttrRead t = [halt_and_catch_fire c.INIT_STATUS_OPERATING] ∧
      t.all (fun e => !isTransportInit e) = true) ∧
  (∀ p v, chip_get_boot_status p ∈ t → chip_unipro_attr_read 0 v ∈ t →
    p &&& c.INIT_STATUS_FAILED ≠ 0 →
    callsAfter isAttrRead t = [halt_and_catch_fire c.INIT_STATUS_OPERATING] ∧
      t.all (fun e => !isTransportInit e) = true) ∧
  (∀ rc, rc ≠ 0 → chip_advertise_boot_type rc ∈ t →
    callsAfter isBootType t = [halt_and_catch_fire c.INIT_STATUS_OPERATING] ∧
      t.all (fun e => !isTransportInit e) = true)

/-- Config data asks for a fake IMS and `efuse_init` fails. -/
def efuseFailsEnv : Env :=
  { sampleEnv with get_2ndstage_cfgdata := 0, use_fake_ims := 1, efuse_init := 1 }

/-- Flash chosen, the flash image fails to load, then `greybus_init` fails. -/
def greybusInitFailsEnv : Env :=
  { sampleEnv with spi_load := (1, 0), greybus_init := 1 }

/-- Is the call `key_generation`? -/
def isKeyGen : Event → Bool
  | key_generation => true
  | _ => false

/-! ## Image container format (`common/shared_inc/tftf.h`) -/

/-- The C types of the members declared in `tftf.h`: `char`/`unsigned char`
arrays, `uint32_t`, arrays of `uint32_t`, and `unsigned int` bit-fields. -/
inductive CType where
  | char_array (n : Nat)
  | uint32_t
  | uint32_array (n : Nat)
  | bitfield (bits : Nat)
  deriving DecidableEq, Repr

/-- Width of a member in bits. -/
def CType.bits : CType → Nat
  | CType.char_array n => 8 * n
  | CType.uint32_t => 32
  | CType.uint32_array n => 32 * n
  | CType.bitfield b => b

/-- Size in bytes of a `__attribute__ ((packed))` struct with the given
members in declaration order: members follow each other without padding. -/
def sizeof_packed (members : List CType) : Nat :=
  (members.map CType.bits).sum / 8

/-- Byte offset of the member at position `i` of a packed struct: the size of
the members declared before it. -/
def offsetof_packed (members : List CType) (i : Nat) : Nat :=
  sizeof_packed (members.take i)

def TFTF_HEADER_SIZE_MIN : Nat := 512

def TFTF_HEADER_SIZE_MAX : Nat := 32768

def TFTF_NUM_RESERVED : Nat := 4

def TFTF_SENTINEL_SIZE : Nat := 4

def TFTF_TIMESTAMP_SIZE : Nat := 16

def TFTF_FW_PKG_NAME_SIZE : Nat := 48

def TFTF_SECTION_END : Nat := 0xFE

def TFTF_SECTION_RAW_CODE : Nat := 1

def TFTF_SECTION_RAW_DATA : Nat := 2

def TFTF_SECTION_COMPRESSED_CODE : Nat := 3

def TFTF_SECTION_COMPRESSED_DATA : Nat := 4

def TFTF_SECTION_MANIFEST : Nat := 5

def TFTF_SECTION_SIGNATURE : Nat := 0x80

def TFTF_SECTION_CERTIFICATE : Nat := 0x81

def TFTF_SIGNATURE_KEY_NAME_SIZE : Nat := 96

def TFTF_SIGNATURE_SIZE : Nat := 256

/-- Members of `tftf_section_descriptor` (tftf.h:76-83), in declaration order:
`section_type : 8`, `section_class : 24`, `section_id`, `section_length`,
`section_load_address`, `section_expanded_length`.  The two bit-fields share
the first 32-bit word, the first-declared one in its lowest byte. -/
def tftf_section_descriptor_members : List CType :=
  [CType.bitfield 8, CType.bitfield 24, CType.uint32_t, CType.uint32_t, CType.uint32_t,
   CType.uint32_t]

/-- Members of the struct inside `tftf_header` that precede the flexible array
`sections[]` (tftf.h:94-106), in declaration order: `sentinel_value`,
`header_size`, `build_timestamp`, `firmware_package_name`, `package_type`,
`start_location`, `unipro_mid`, `unipro_pid`, `ara_vid`, `ara_pid`,
`reserved`. -/
def tftf_header_members : List CType :=
  [CType.char_array TFTF_SENTINEL_SIZE, CType.uint32_t,
   CType.char_array TFTF_TIMESTAMP_SIZE, CType.char_array TFTF_FW_PKG_NAME_SIZE,
   CType.uint32_t, CType.uint32_t, CType.uint32_t, CType.uint32_t, CType.uint32_t,
   CType.uint32_t, CType.uint32_array TFTF_NUM_RESERVED]

/-- Members of `tftf_signature` (tftf.h:152-157), in declaration order:
`length`, `type`, `key_name`, `signature`. -/
def tftf_signature_members : List CType :=
  [CType.uint32_t, CType.uint32_t, CType.char_array TFTF_SIGNATURE_KEY_NAME_SIZE,
   CType.char_array TFTF_SIGNATURE_SIZE]

/-- `TFTF_SECTION_SIZE`, that is `sizeof(tftf_section_descriptor)` (tftf.h:85). -/
def TFTF_SECTION_SIZE : Nat :=
  sizeof_packed tftf_section_descriptor_members

/-- `offsetof(tftf_header, sections)`: the flexible array member starts right
after the declared members. -/
def offsetof_sections : Nat :=
  sizeof_packed tftf_header_members

/-- Byte offset, from the start of the header buffer, of `header->sections[i]`. -/
def section_offset (i : Nat) : Nat :=
  offsetof_sections + i * TFTF_SECTION_SIZE

/-- A `tftf_section_descriptor` value (tftf.h:76-83). -/
structure tftf_section_descriptor where
  section_type : Nat
  section_class : Nat
  section_id : Nat
  section_length : Nat
  section_load_address : Nat
  section_expanded_length : Nat
  deriving DecidableEq, Repr

/-- `is_section_hashed` (tftf.h:89-91): `!(section->section_type & (1 << 7))`. -/
def is_section_hashed (sec : tftf_section_descriptor) : Bool :=
  !(sec.section_type &&& (1 <<< 7) != 0)

/-- `CALC_MAX_TFTF_SECTIONS` (tftf.h:129-131), for a `uint32_t` `header_size`:
the subtraction and the division are unsigned 32-bit operations, so the
difference wraps around when `header_size` is below the offset of the table. -/
def CALC_MAX_TFTF_SECTIONS (header_size : Nat) : Nat :=
  ((header_size + 2 ^ 32 - offsetof_sections) % 2 ^ 32) / TFTF_SECTION_SIZE

/-- `is_section_out_of_range` (tftf.h:134-139).  Pointers are byte addresses:
`buffer` is the address of `header->buffer`, `sec` the address of the
descriptor `section`; the comparison is
`section >= buffer + header_size - sizeof(tftf_section_descriptor)`,
computed without wrap-around. -/
def is_section_out_of_range (buffer header_size sec : Nat) : Bool :=
  decide ((sec : Int) ≥ (buffer : Int) + (header_size : Int) - (TFTF_SECTION_SIZE : Int))

/-! ## M-PHY fixups (`chips/es2tsb/src/es2_unipro.c`) -/

def TSB_MPHY_MAP : Nat := 0x7F

def TSB_MPHY_MAP_TSB_REGISTER_1 : Nat := 0x01

def TSB_MPHY_MAP_NORMAL : Nat := 0x00

def TSB_MPHY_MAP_TSB_REGISTER_2 : Nat := 0x81

/-- A `struct tsb_mphy_fixup` value (es2_unipro.c:53-61). -/
structure tsb_mphy_fixup where
  attrid : Nat
  select_index : Nat
  value : Nat
  flags : Nat
  deriving DecidableEq, Repr

def TSB_MPHY_FIXUP_LAST : Nat := 0x1

def TSB_MPHY_FIXUP_MAGIC_R1 : Nat := 0x2

/-- `tsb_mphy_fixup_is_last` (es2_unipro.c:70-72), as a truth value. -/
def tsb_mphy_fixup_is_last (fu : tsb_mphy_fixup) : Bool :=
  fu.flags &&& TSB_MPHY_FIXUP_LAST != 0

/-- `tsb_mphy_r1_fixup_is_magic` (es2_unipro.c:74-76), as a truth value. -/
def tsb_mphy_r1_fixup_is_magic (fu : tsb_mphy_fixup) : Bool :=
  fu.flags &&& TSB_MPHY_FIXUP_MAGIC_R1 != 0

/-- The initialiser macro `__TSB_MPHY_FIXUP(a, s, v, f)`. -/
def __TSB_MPHY_FIXUP (a s v f : Nat) : tsb_mphy_fixup :=
  { attrid := a, select_index := s, value := v, flags := f }

/-- The initialiser macro `TSB_MPHY_FIXUP(a, s, v)`. -/
def TSB_MPHY_FIXUP (a s v : Nat) : tsb_mphy_fixup :=
  __TSB_MPHY_FIXUP a s v 0

/-- The initialiser macro `TSB_MPHY_LAST_FIXUP(a, s, v)`. -/
def TSB_MPHY_LAST_FIXUP (a s v : Nat) : tsb_mphy_fixup :=
  __TSB_MPHY_FIXUP a s v TSB_MPHY_FIXUP_LAST

/-- The initialiser macro `TSB_MPHY_MAGIC_R1_FIXUP()`. -/
def TSB_MPHY_MAGIC_R1_FIXUP : tsb_mphy_fixup :=
  __TSB_MPHY_FIXUP 0 0 0 TSB_MPHY_FIXUP_MAGIC_R1

/-- The table `tsb_register_1_map_mphy_fixups` (es2_unipro.c:87-121). -/
def tsb_register_1_map_mphy_fixups : List tsb_mphy_fixup :=
  [TSB_MPHY_MAGIC_R1_FIXUP,
   TSB_MPHY_FIXUP 0x8004 0 0xCA,
   TSB_MPHY_FIXUP 0x8015 0 0x01,
   TSB_MPHY_FIXUP 0x8022 0 0x44,
   TSB_MPHY_FIXUP 0x8023 0 0x42,
   TSB_MPHY_FIXUP 0x80A2 0 0x00,
   TSB_MPHY_FIXUP 0x80AA 0 0xA8,
   TSB_MPHY_FIXUP 0x80BA 0 0x20,
   TSB_MPHY_FIXUP 0x80A2 1 0x00,
   TSB_MPHY_FIXUP 0x80AA 1 0xA8,
   TSB_MPHY_FIXUP 0x80BA 1 0x20,
   TSB_MPHY_FIXUP 0x8094 4 0x09,
   TSB_MPHY_FIXUP 0x809A 4 0x06,
   TSB_MPHY_FIXUP 0x809B 4 0x03,
   TSB_MPHY_FIXUP 0x809C 4 0x00,
   TSB_MPHY_FIXUP 0x80AA 4 0x0F,
   TSB_MPHY_FIXUP 0x80B4 4 0x50,
   TSB_MPHY_FIXUP 0x80B6 4 0x82,
   TSB_MPHY_FIXUP 0x80B7 4 0x01,
   TSB_MPHY_FIXUP 0x8094 5 0x09,
   TSB_MPHY_FIXUP 0x809A 5 0x06,
   TSB_MPHY_FIXUP 0x809B 5 0x03,
   TSB_MPHY_FIXUP 0x809C 5 0x00,
   TSB_MPHY_FIXUP 0x80AA 5 0x0F,
   TSB_MPHY_FIXUP 0x80B4 5 0x50,
   TSB_MPHY_FIXUP 0x80B6 5 0x82,
   TSB_MPHY_FIXUP 0x80B7 5 0x01,
   TSB_MPHY_LAST_FIXUP 0x8000 0 0x01]

/-- The table `tsb_register_2_map_mphy_fixups` (es2_unipro.c:123-155). -/
def tsb_register_2_map_mphy_fixups : List tsb_mphy_fixup :=
  [TSB_MPHY_FIXUP 0x8000 0 0x02,
   TSB_MPHY_FIXUP 0x8080 0 0x20,
   TSB_MPHY_FIXUP 0x8081 0 0x03,
   TSB_MPHY_FIXUP 0x8080 1 0x20,
   TSB_MPHY_FIXUP 0x8081 1 0x03,
   TSB_MPHY_FIXUP 0x8082 4 0x3F,
   TSB_MPHY_FIXUP 0x8084 4 0x10,
   TSB_MPHY_FIXUP 0x8086 4 0x10,
   TSB_MPHY_FIXUP 0x8087 4 0x01,
   TSB_MPHY_FIXUP 0x8088 4 0x10,
   TSB_MPHY_FIXUP 0x808D 4 0x0B,
   TSB_MPHY_FIXUP 0x808E 4 0x00,
   TSB_MPHY_FIXUP 0x8094 4 0x00,
   TSB_MPHY_FIXUP 0x8096 4 0x00,
   TSB_MPHY_FIXUP 0x8098 4 0x08,
   TSB_MPHY_FIXUP 0x8099 4 0x50,
   TSB_MPHY_FIXUP 0x8082 5 0x3F,
   TSB_MPHY_FIXUP 0x8084 5 0x10,
   TSB_MPHY_FIXUP 0x8086 5 0x10,
   TSB_MPHY_FIXUP 0x8087 5 0x01,
   TSB_MPHY_FIXUP 0x8088 5 0x10,
   TSB_MPHY_FIXUP 0x808D 5 0x0B,
   TSB_MPHY_FIXUP 0x808E 5 0x00,
   TSB_MPHY_FIXUP 0x8094 5 0x00,
   TSB_MPHY_FIXUP 0x8096 5 0x00,
   TSB_MPHY_FIXUP 0x8098 5 0x08,
   TSB_MPHY_LAST_FIXUP 0x8099 5 0x50]

/-- One call made by `es2_fixup_mphy`, with its arguments and, for the register
read and the attribute writes, what came back (for a write: the value left in
`urc`). -/
inductive MphyCall where
  | tsb_get_debug_reg (offset : Nat) (ret : Nat)
  | unipro_attr_local_write (attr val selector : Nat) (urc : Nat)
  | dbgprint
  | dbgprintx32 (num : Nat)
  deriving DecidableEq, Repr

/-- The value left in the `uint32_t urc` by the `k`-th attribute write of a run
(counting from 0), given what the hardware reports for each write. -/
def result_code (urc : Nat → Nat) (k : Nat) : Nat :=
  urc k % 2 ^ 32

/-- How a fixup loop ends: it leaves the loop after `k` writes in all; or it
returns the non-zero result code of a write; or its pointer `fu` has walked
past the end of the table and the body reads there. -/
inductive LoopExit where
  | finished (k : Nat)
  | failed (urc : Nat)
  | past_end
  deriving DecidableEq, Repr

/-- The first `do ... while` loop of `es2_fixup_mphy` (es2_unipro.c:174-182),
entered with `fu` pointing at the first element of the list (the rest of the
table from there on) after `k` writes have been made.  Returns the calls the
loop makes and how it ends. -/
def register_2_loop (urc : Nat → Nat) : List tsb_mphy_fixup → Nat → List MphyCall × LoopExit
  | [], _ => ([], LoopExit.past_end)
  | fu :: rest, k =>
    let rc := result_code urc k
    let w := MphyCall.unipro_attr_local_write fu.attrid fu.value fu.select_index rc
    if rc ≠ 0 then
      ([w, MphyCall.dbgprint, MphyCall.dbgprintx32 rc], LoopExit.failed rc)
    else if tsb_mphy_fixup_is_last fu then
      ([w], LoopExit.finished (k + 1))
    else
      (w :: (register_2_loop urc rest (k + 1)).1, (register_2_loop urc rest (k + 1)).2)

/-- The second `do ... while` loop of `es2_fixup_mphy` (es2_unipro.c:206-222),
which draws the value of a "magic" fixup from debug register 0x0720. -/
def register_1_loop (debug_0720 : Nat) (urc : Nat → Nat) :
    List tsb_mphy_fixup → Nat → List MphyCall × LoopExit
  | [], _ => ([], LoopExit.past_end)
  | fu :: rest, k =>
    let rc := result_code urc k
    let w :=
      if tsb_mphy_r1_fixup_is_magic fu then
        MphyCall.unipro_attr_local_write 0x8002 ((debug_0720 >>> 1) &&& 0x1f) 0 rc
      else
        MphyCall.unipro_attr_local_write fu.attrid fu.value fu.select_index rc
    if rc ≠ 0 then
      ([w, MphyCall.dbgprint, MphyCall.dbgprintx32 rc], LoopExit.failed rc)
    else if tsb_mphy_fixup_is_last fu then
      ([w], LoopExit.finished (k + 1))
    else
      (w :: (register_1_loop debug_0720 urc rest (k + 1)).1,
        (register_1_loop debug_0720 urc rest (k + 1)).2)

/-- `es2_fixup_mphy` (es2_unipro.c:157-236): the calls made and the value
returned.  `reg_0720` is what `tsb_get_debug_reg(0x0720)` returns and `urc`
what each attribute write reports.  The `int` result is given as its 32-bit
pattern; `none` stands for a run whose loop pointer left its table. -/
def es2_fixup_mphy (reg_0720 : Nat) (urc : Nat → Nat) : List MphyCall × Option Nat :=
  let debug_0720 := reg_0720 % 2 ^ 32
  let t0 := [MphyCall.tsb_get_debug_reg 0x0720 debug_0720]
  let rc0 := result_code urc 0
  let t1 := t0 ++
    [MphyCall.unipro_attr_local_write TSB_MPHY_MAP TSB_MPHY_MAP_TSB_REGISTER_2 0 rc0]
  if rc0 ≠ 0 then
    (t1 ++ [MphyCall.dbgprint, MphyCall.dbgprintx32 rc0], some rc0)
  else
    match register_2_loop urc tsb_register_2_map_mphy_fixups 1 with
    | (t2, LoopExit.failed rc) => (t1 ++ t2, some rc)
    | (t2, LoopExit.past_end) => (t1 ++ t2, none)
    | (t2, LoopExit.finished k) =>
      let rc3 := result_code urc k
      let t3 := t1 ++ t2 ++
        [MphyCall.unipro_attr_local_write TSB_MPHY_MAP TSB_MPHY_MAP_NORMAL 0 rc3]
      if rc3 ≠ 0 then
        (t3 ++ [MphyCall.dbgprint, MphyCall.dbgprintx32 rc3], some rc3)
      else
        let rc4 := result_code urc (k + 1)
        let t4 := t3 ++
          [MphyCall.unipro_attr_local_write TSB_MPHY_MAP TSB_MPHY_MAP_TSB_REGISTER_1 0 rc4]
        if rc4 ≠ 0 then
          (t4 ++ [MphyCall.dbgprint, MphyCall.dbgprintx32 rc4], some rc4)
        else
          match register_1_loop debug_0720 urc tsb_register_1_map_mphy_fixups (k + 2) with
          | (t5, LoopExit.failed rc) => (t4 ++ t5, some rc)
          | (t5, LoopExit.past_end) => (t4 ++ t5, none)
          | (t5, LoopExit.finished k') =>
            let rc6 := result_code urc k'
            let t6 := t4 ++ t5 ++
              [MphyCall.unipro_attr_local_write TSB_MPHY_MAP TSB_MPHY_MAP_NORMAL 0 rc6]
            if rc6 ≠ 0 then
              (t6 ++ [MphyCall.dbgprint, MphyCall.dbgprintx32 rc6], some rc6)
            else
              (t6, some 0)

/-- The attribute, value and selector written for an ordinary fixup. -/
def fixup_write (fu : tsb_mphy_fixup) : Nat × Nat × Nat :=
  (fu.attrid, fu.value, fu.select_index)

/-- The attribute, value and selector written for a fixup of the register 1
map: a "magic" entry takes its value from debug register 0x0720. -/
def r1_fixup_write (debug_0720 : Nat) (fu : tsb_mphy_fixup) : Nat × Nat × Nat :=
  if tsb_mphy_r1_fixup_is_magic fu then (0x8002, (debug_0720 >>> 1) &&& 0x1f, 0)
  else fixup_write fu

/-- The writes `es2_fixup_mphy` is meant to make, in order: switch to the
register 2 map, every entry of its table, back to the normal map, switch to the
register 1 map, every entry of its table, back to the normal map. -/
def mphy_write_sequence (reg_0720 : Nat) : List (Nat × Nat × Nat) :=
  [(TSB_MPHY_MAP, TSB_MPHY_MAP_TSB_REGISTER_2, 0)] ++
  tsb_register_2_map_mphy_fixups.map fixup_write ++
  [(TSB_MPHY_MAP, TSB_MPHY_MAP_NORMAL, 0), (TSB_MPHY_MAP, TSB_MPHY_MAP_TSB_REGISTER_1, 0)] ++
  tsb_register_1_map_mphy_fixups.map (r1_fixup_write (reg_0720 % 2 ^ 32)) ++
  [(TSB_MPHY_MAP, TSB_MPHY_MAP_NORMAL, 0)]

/-- The call that writes the triple `w` and gets `rc` back. -/
def write_call (w : Nat × Nat × Nat) (rc : Nat) : MphyCall :=
  MphyCall.unipro_attr_local_write w.1 w.2.1 w.2.2 rc

/-- Reference behaviour: make the given writes in order, the first being the
`k`-th write of the run, and stop at the first one that reports a non-zero
code, logging it.  Returns the calls made and that code, if any. -/
def write_until_fail (urc : Nat → Nat) : List (Nat × Nat × Nat) → Nat → List MphyCall × Option Nat
  | [], _ => ([], none)
  | w :: ws, k =>
    if result_code urc k ≠ 0 then
      ([write_call w (result_code urc k), MphyCall.dbgprint,
        MphyCall.dbgprintx32 (result_code urc k)], some (result_code urc k))
    else
      (write_call w 0 :: (write_until_fail urc ws (k + 1)).1,
        (write_until_fail urc ws (k + 1)).2)

/-- The exit of a loop that behaves like `write_until_fail` and, on success,
has made `k` writes in all. -/
def loop_exit_of (r : Option Nat) (k : Nat) : LoopExit :=
  match r with
  | some rc => LoopExit.failed rc
  | none => LoopExit.finished k

/-! ## Shared lemmas -/

/-- The calls `boot_control` makes: the two reads, followed by a halt exactly
when it does not return. -/
theorem boot_control_calls (c : Consts) (env : Env) (b : Bool) :
    (boot_control c env b).1 =
      [chip_get_boot_status env.chip_get_boot_status,
       chip_unipro_attr_read env.chip_unipro_attr_read env.bootctrl] ++
      (match (boot_control c env b).2 with
       | none => [halt_and_catch_fire c.INIT_STATUS_OPERATING]
       | some _ => []) := by
  unfold boot_control
  simp only []
  split_ifs <;> simp

theorem lastLoad_append (a b : List Event) :
    lastLoad (a ++ b) = (lastLoad b).or (lastLoad a) := by
  simp [lastLoad]

theorem lastLoad_cons (e : Event) (t : List Event) :
    lastLoad (e :: t) = (lastLoad t).or (loadOf e) := by
  have h := lastLoad_append [e] t
  simp only [List.singleton_append] at h
  rw [h]
  cases hl : loadOf e <;> simp [lastLoad, hl]

theorem callsBefore_cons (p : Event → Bool) (e : Event) (t : List Event) :
    callsBefore p (e :: t) = if p e then [] else e :: callsBefore p t := by
  cases h : p e <;> simp [callsBefore, List.takeWhile_cons, h]

theorem callsAfter_cons (p : Event → Bool) (e : Event) (t : List Event) :
    callsAfter p (e :: t) = if p e then t else callsAfter p t := by
  cases h : p e <;> simp [callsAfter, List.dropWhile_cons, h]

/-! ## Trust demotion on launch -/

theorem rig_iff_untrusted_unipro (c : Consts) (env : Env) (bfs fb : Bool) (bs : Nat)
    (h : jump_to_image ∈ bootrom_main_unipro c env bfs fb bs) :
    ∃ m s, lastLoad (bootrom_main_unipro c env bfs fb bs) = some (m, 0, s) ∧
      (efuse_rig_for_untrusted ∈ bootrom_main_unipro c env bfs fb bs ↔ s = 0) := by
  generalize hT : bootrom_main_unipro c env bfs fb bs = t at h ⊢
  unfold bootrom_main_unipro at hT
  simp only [] at hT
  split_ifs at hT <;> subst hT <;>
    refine ⟨Medium.greybus, env.greybus_load.2, ?_, ?_⟩ <;> simp_all [lastLoad, loadOf]

theorem rig_iff_untrusted_boot (c : Consts) (env : Env) (bfs : Bool)
    (h : jump_to_image ∈ bootrom_main_boot c env bfs) :
    ∃ m s, lastLoad (bootrom_main_boot c env bfs) = some (m, 0, s) ∧
      (efuse_rig_for_untrusted ∈ bootrom_main_boot c env bfs ↔ s = 0) := by
  generalize hT : bootrom_main_boot c env bfs = t at h ⊢
  unfold bootrom_main_boot at hT
  simp only [] at hT
  split_ifs at hT <;> subst hT
  all_goals first
    | (refine ⟨Medium.spi, env.spi_load.2, ?_, ?_⟩ <;> simp_all [lastLoad, loadOf]; done)
    | (try simp at h
       obtain ⟨m, s, h1, h2⟩ := rig_iff_untrusted_unipro c env _ _ _ h
       exact ⟨m, s, by simp [lastLoad_cons, loadOf, h1], by simp [h2]⟩)

theorem rig_iff_untrusted_keys (c : Consts) (env : Env)
    (h : jump_to_image ∈ bootrom_main_keys c env) :
    ∃ m s, lastLoad (bootrom_main_keys c env) = some (m, 0, s) ∧
      (efuse_rig_for_untrusted ∈ bootrom_main_keys c env ↔ s = 0) := by
  generalize hT : bootrom_main_keys c env = t at h ⊢
  unfold bootrom_main_keys at hT
  simp only [] at hT
  have hc := boot_control_calls c env true
  rcases hb : boot_control c env true with ⟨tc, r⟩
  rw [hb] at hT hc
  cases r with
  | none => subst hT; simp_all
  | some b =>
    simp only [] at hT hc
    subst hc
    split_ifs at hT <;> subst hT
    · simp_all
    · have h' : jump_to_image ∈ bootrom_main_boot c env b := by simpa using h
      obtain ⟨m, s, h1, h2⟩ := rig_iff_untrusted_boot c env _ h'
      exact ⟨m, s, by simp [lastLoad_cons, loadOf, h1], by simp [h2]⟩

/-- C1: on every run of `bootrom_main` that reaches `jump_to_image`, the last
`load_tftf_image` call returned 0, and `efuse_rig_for_untrusted` is called on
that run if and only if that load left `is_secure_image` equal to 0. -/
theorem efuse_rig_iff_untrusted (c : Consts) (env : Env)
    (h : jump_to_image ∈ bootrom_main c env) :
    ∃ m s, lastLoad (bootrom_main c env) = some (m, 0, s) ∧
      (efuse_rig_for_untrusted ∈ bootrom_main c env ↔ s = 0) := by
  generalize hT : bootrom_main c env = t at h ⊢
  unfold bootrom_main at hT
  simp only [] at hT
  split_ifs at hT <;> subst hT
  all_goals first
    | (simp at h; done)
    | (have h' : jump_to_image ∈ bootrom_main_keys c env := by simpa using h
       obtain ⟨m, s, h1, h2⟩ := rig_iff_untrusted_keys c env h'
       exact ⟨m, s, by simp [lastLoad_cons, loadOf, h1], by simp [h2]⟩)

/-- The sample run launches the flash image, so C1 applies to it. -/
theorem efuse_rig_iff_untrusted_witness :
    ∃ m s, lastLoad (bootrom_main sampleConsts sampleEnv) = some (m, 0, s) ∧
      (efuse_rig_for_untrusted ∈ bootrom_main sampleConsts sampleEnv ↔ s = 0) :=
  efuse_rig_iff_untrusted sampleConsts sampleEnv (by decide)

/-! ## Trust demotion happens once, before the jump -/

theorem rigOnce_unipro (c : Consts) (env : Env) (bfs fb : Bool) (bs : Nat) :
    RigOnceBeforeJump (bootrom_main_unipro c env bfs fb bs) := by
  generalize hT : bootrom_main_unipro c env bfs fb bs = t
  unfold bootrom_main_unipro at hT
  simp only [] at hT
  split_ifs at hT <;> subst hT <;>
    simp [RigOnceBeforeJump, callsBefore_cons, callsAfter_cons, isJump, isRig, callsBefore,
      callsAfter, List.countP_cons]

theorem rigOnce_boot (c : Consts) (env : Env) (bfs : Bool) :
    RigOnceBeforeJump (bootrom_main_boot c env bfs) := by
  generalize hT : bootrom_main_boot c env bfs = t
  unfold bootrom_main_boot at hT
  simp only [] at hT
  have ih := rigOnce_unipro c env
  unfold RigOnceBeforeJump at ih ⊢
  split_ifs at hT <;> subst hT
  all_goals first
    | (simp [callsBefore_cons, callsAfter_cons, isJump, isRig, callsBefore, callsAfter,
        List.countP_cons]; done)
    | simpa [callsBefore_cons, callsAfter_cons, isJump, isRig, List.countP_cons] using ih _ _ _

theorem rigOnce_keys (c : Consts) (env : Env) :
    RigOnceBeforeJump (bootrom_main_keys c env) := by
  generalize hT : bootrom_main_keys c env = t
  unfold bootrom_main_keys at hT
  simp only [] at hT
  have hc := boot_control_calls c env true
  have ih := rigOnce_boot c env
  unfold RigOnceBeforeJump at ih ⊢
  rcases hb : boot_control c env true with ⟨tc, r⟩
  rw [hb] at hT hc
  cases r with
  | none =>
    simp only [] at hT hc
    subst hc
    subst hT
    simp [callsBefore_cons, callsAfter_cons, isJump, isRig, callsBefore, callsAfter,
      List.countP_cons]
  | some b =>
    simp only [] at hT hc
    subst hc
    split_ifs at hT <;> subst hT
    · simp [callsBefore_cons, callsAfter_cons, isJump, isRig, callsBefore, callsAfter,
        List.countP_cons]
    · simpa [callsBefore_cons, callsAfter_cons, isJump, isRig, List.countP_cons] using ih b

theorem rigOnce_main (c : Consts) (env : Env) :
    RigOnceBeforeJump (bootrom_main c env) := by
  generalize hT : bootrom_main c env = t
  unfold bootrom_main at hT
  simp only [] at hT
  have ih := rigOnce_keys c env
  unfold RigOnceBeforeJump at ih ⊢
  split_ifs at hT <;> subst hT
  all_goals first
    | (simp [callsBefore_cons, callsAfter_cons, isJump, isRig, callsBefore, callsAfter,
        List.countP_cons]; done)
    | simpa [callsBefore_cons, callsAfter_cons, isJump, isRig, List.countP_cons] using ih

/-- C2: on every run of `bootrom_main`, `efuse_rig_for_untrusted` is called at
most once (and so is `jump_to_image`); when it is called, the call lies before
the jump of that run, which exists; no call to it follows the jump; and a run
that makes a `halt_and_catch_fire` call never calls it. -/
theorem efuse_rig_once_before_jump (c : Consts) (env : Env) :
    (bootrom_main c env).countP isRig ≤ 1 ∧
    (bootrom_main c env).countP isJump ≤ 1 ∧
    (efuse_rig_for_untrusted ∈ bootrom_main c env →
      efuse_rig_for_untrusted ∈ callsBefore isJump (bootrom_main c env) ∧
        jump_to_image ∈ bootrom_main c env) ∧
    efuse_rig_for_untrusted ∉ callsAfter isJump (bootrom_main c env) ∧
    (∀ s, halt_and_catch_fire s ∈ bootrom_main c env →
      efuse_rig_for_untrusted ∉ bootrom_main c env) :=
  rigOnce_main c env

/-- C2 applied to a run that launches an unsigned image from the fabric after
a failed flash load: the demotion call is made, before the jump. -/
theorem efuse_rig_once_before_jump_witness :
    efuse_rig_for_untrusted ∈
        callsBefore isJump (bootrom_main sampleConsts fallbackUntrustedEnv) ∧
      jump_to_image ∈ bootrom_main sampleConsts fallbackUntrustedEnv :=
  (efuse_rig_once_before_jump sampleConsts fallbackUntrustedEnv).2.2.1 (by decide)

/-! ## How a run ends -/

theorem ends_unipro (c : Consts) (env : Env) (bfs fb : Bool) (bs : Nat) :
    EndsInJumpOrHalt (bootrom_main_unipro c env bfs fb bs) := by
  generalize hT : bootrom_main_unipro c env bfs fb bs = t
  unfold bootrom_main_unipro at hT
  simp only [] at hT
  split_ifs at hT <;> subst hT <;>
    simp [EndsInJumpOrHalt, List.suffix_cons_iff, isJump, isHalt, List.countP_cons]

theorem ends_boot (c : Consts) (env : Env) (bfs : Bool) :
    EndsInJumpOrHalt (bootrom_main_boot c env bfs) := by
  generalize hT : bootrom_main_boot c env bfs = t
  unfold bootrom_main_boot at hT
  simp only [] at hT
  have ih := ends_unipro c env
  unfold EndsInJumpOrHalt at ih ⊢
  split_ifs at hT <;> subst hT
  all_goals first
    | (simp [List.suffix_cons_iff, isJump, isHalt, List.countP_cons]; done)
    | simpa [List.suffix_cons_iff, isJump, isHalt, List.countP_cons] using ih _ _ _

theorem ends_keys (c : Consts) (env : Env) :
    EndsInJumpOrHalt (bootrom_main_keys c env) := by
  generalize hT : bootrom_main_keys c env = t
  unfold bootrom_main_keys at hT
  simp only [] at hT
  have hc := boot_control_calls c env true
  have ih := ends_boot c env
  unfold EndsInJumpOrHalt at ih ⊢
  rcases hb : boot_control c env true with ⟨tc, r⟩
  rw [hb] at hT hc
  cases r with
  | none =>
    simp only [] at hT hc
    subst hc
    subst hT
    simp [List.suffix_cons_iff, isJump, isHalt, List.countP_cons]
  | some b =>
    simp only [] at hT hc
    subst hc
    split_ifs at hT <;> subst hT
    · simp [List.suffix_cons_iff, isJump, isHalt, List.countP_cons]
    · simpa [List.suffix_cons_iff, isJump, isHalt, List.countP_cons] using ih b

theorem ends_main (c : Consts) (env : Env) :
    EndsInJumpOrHalt (bootrom_main c env) := by
  generalize hT : bootrom_main c env = t
  unfold bootrom_main at hT
  simp only [] at hT
  have ih := ends_keys c env
  unfold EndsInJumpOrHalt at ih ⊢
  split_ifs at hT <;> subst hT
  all_goals first
    | (simp [List.suffix_cons_iff, isJump, isHalt, List.countP_cons]; done)
    | simpa [List.suffix_cons_iff, isJump, isHalt, List.countP_cons] using ih

theorem lastLoad_mem (t : List Event) (m : Medium) (rc : Int) (s : Nat)
    (h : lastLoad t = some (m, rc, s)) : load_tftf_image m rc s ∈ t := by
  unfold lastLoad at h
  have h1 : (m, rc, s) ∈ t.filterMap loadOf := List.mem_of_getLast?_eq_some h
  obtain ⟨e, he, hl⟩ := List.mem_filterMap.mp h1
  cases e <;> simp [loadOf] at hl
  obtain ⟨rfl, rfl, rfl⟩ := hl
  exact he

theorem no_successful_load_of_all (t : List Event)
    (h : t.all (fun e => !isLoadOk e) = true) :
    ∀ m s, load_tftf_image m 0 s ∉ t := by
  intro m s hm
  have := List.all_eq_true.mp h _ hm
  simp [isLoadOk] at this

/-! ## A jump requires a successful load -/

theorem launch_unipro (c : Consts) (env : Env) (bfs fb : Bool) (bs : Nat) :
    LaunchAfterLoad (bootrom_main_unipro c env bfs fb bs) := by
  intro h
  generalize hT : bootrom_main_unipro c env bfs fb bs = t at h ⊢
  unfold bootrom_main_unipro at hT
  simp only [] at hT
  split_ifs at hT <;> subst hT <;>
    refine Or.inr ⟨env.greybus_load.2, ?_, ?_⟩ <;>
    simp_all [lastLoad, loadOf]

theorem launch_boot (c : Consts) (env : Env) (bfs : Bool) :
    LaunchAfterLoad (bootrom_main_boot c env bfs) := by
  intro h
  generalize hT : bootrom_main_boot c env bfs = t at h ⊢
  unfold bootrom_main_boot at hT
  simp only [] at hT
  split_ifs at hT <;> subst hT
  all_goals first
    | (refine Or.inl ⟨env.spi_load.2, ?_, ?_⟩ <;> simp_all [lastLoad, loadOf]; done)
    | (try simp at h
       rcases launch_unipro c env _ _ _ h with ⟨s, h1, h2⟩ | ⟨s, h1, h2⟩
       · exact Or.inl ⟨s, by simp [lastLoad_cons, loadOf, h1], by simp [h2]⟩
       · exact Or.inr ⟨s, by simp [lastLoad_cons, loadOf, h1], by simp [h2]⟩)

theorem launch_keys (c : Consts) (env : Env) :
    LaunchAfterLoad (bootrom_main_keys c env) := by
  intro h
  generalize hT : bootrom_main_keys c env = t at h ⊢
  unfold bootrom_main_keys at hT
  simp only [] at hT
  have hc := boot_control_calls c env true
  rcases hb : boot_control c env true with ⟨tc, r⟩
  rw [hb] at hT hc
  cases r with
  | none => subst hT; simp_all
  | some b =>
    simp only [] at hT hc
    subst hc
    split_ifs at hT <;> subst hT
    · simp_all
    · simp at h
      rcases launch_boot c env _ h with ⟨s, h1, h2⟩ | ⟨s, h1, h2⟩
      · exact Or.inl ⟨s, by simp [lastLoad_cons, loadOf, h1], by simp [h2]⟩
      · exact Or.inr ⟨s, by simp [lastLoad_cons, loadOf, h1], by simp [h2]⟩

theorem launch_main (c : Consts) (env : Env) :
    LaunchAfterLoad (bootrom_main c env) := by
  intro h
  generalize hT : bootrom_main c env = t at h ⊢
  unfold bootrom_main at hT
  simp only [] at hT
  split_ifs at hT <;> subst hT
  all_goals first
    | (simp at h; done)
    | (simp at h
       rcases launch_keys c env h with ⟨s, h1, h2⟩ | ⟨s, h1, h2⟩
       · exact Or.inl ⟨s, by simp [lastLoad_cons, loadOf, h1], by simp [h2]⟩
       · exact Or.inr ⟨s, by simp [lastLoad_cons, loadOf, h1], by simp [h2]⟩)

/-- C3: a run of `bootrom_main` that calls `jump_to_image` ends with that call,
and the last `load_tftf_image` before it returned 0 on the launching medium:
over `spi_ops` after `locate_ffff_element_on_storage` returned 0, or over
`greybus_ops` followed by `greybus_ops.finish(true, ...)` returning 0.  A run
in which no `load_tftf_image` call returns 0 makes no jump and ends in
`halt_and_catch_fire`. -/
theorem jump_requires_successful_load (c : Consts) (env : Env) :
    (jump_to_image ∈ bootrom_main c env →
      [jump_to_image] <:+ bootrom_main c env ∧
      ((∃ s, lastLoad (bootrom_main c env) = some (Medium.spi, 0, s) ∧
          locate_ffff_element_on_storage Medium.spi 0 ∈ bootrom_main c env) ∨
        (∃ s, lastLoad (bootrom_main c env) = some (Medium.greybus, 0, s) ∧
          finish Medium.greybus true s 0 ∈ bootrom_main c env))) ∧
    ((∀ m s, load_tftf_image m 0 s ∉ bootrom_main c env) →
      jump_to_image ∉ bootrom_main c env ∧
        ∃ st, [halt_and_catch_fire st] <:+ bootrom_main c env) := by
  have hl := launch_main c env
  have he := ends_main c env
  unfold LaunchAfterLoad at hl
  unfold EndsInJumpOrHalt at he
  constructor
  · intro h
    refine ⟨?_, hl h⟩
    rcases he with ⟨h1, _, _⟩ | ⟨st, _, h2, _⟩
    · exact h1
    · exact absurd h h2
  · intro hno
    have hj : jump_to_image ∉ bootrom_main c env := by
      intro h
      rcases hl h with ⟨s, h1, _⟩ | ⟨s, h1, _⟩
      · exact hno _ _ (lastLoad_mem _ _ _ _ h1)
      · exact hno _ _ (lastLoad_mem _ _ _ _ h1)
    refine ⟨hj, ?_⟩
    rcases he with ⟨h1, _, _⟩ | ⟨st, h1, _, _⟩
    · exact absurd (h1.subset (List.mem_singleton.mpr rfl)) hj
    · exact ⟨st, h1⟩

/-- A run in which the flash load fails and the fabric load succeeds: C3 applied
to both of its halves (the run jumps; a run without a successful load would
not). -/
theorem jump_requires_successful_load_witness :
    ([jump_to_image] <:+
        bootrom_main sampleConsts { sampleEnv with spi_load := (1, 0) } ∧
      ((∃ s, lastLoad (bootrom_main sampleConsts { sampleEnv with spi_load := (1, 0) }) =
            some (Medium.spi, 0, s) ∧
          locate_ffff_element_on_storage Medium.spi 0 ∈
            bootrom_main sampleConsts { sampleEnv with spi_load := (1, 0) }) ∨
        (∃ s, lastLoad (bootrom_main sampleConsts { sampleEnv with spi_load := (1, 0) }) =
            some (Medium.greybus, 0, s) ∧
          finish Medium.greybus true s 0 ∈
            bootrom_main sampleConsts { sampleEnv with spi_load := (1, 0) }))) ∧
    (jump_to_image ∉
        bootrom_main sampleConsts
          { sampleEnv with spi_load := (1, 0), greybus_load := (1, 0) } ∧
      ∃ st, [halt_and_catch_fire st] <:+
        bootrom_main sampleConsts
          { sampleEnv with spi_load := (1, 0), greybus_load := (1, 0) }) :=
  ⟨(jump_requires_successful_load sampleConsts { sampleEnv with spi_load := (1, 0) }).1
      (by decide),
    (jump_requires_successful_load sampleConsts
      { sampleEnv with spi_load := (1, 0), greybus_load := (1, 0) }).2
      (no_successful_load_of_all _ (by decide))⟩

/-! ## Fallback from flash to fabric -/

theorem fallback_unipro (c : Consts) (env : Env) (bfs fb : Bool) (bs : Nat) :
    (bfs = false →
      (env.greybus_init = 0 ∧ env.greybus_ops_init = 0 →
        (callsBefore isHalt (bootrom_main_unipro c env bfs fb bs)).countP isGreybusLoad = 1) ∧
      (¬(env.greybus_init = 0 ∧ env.greybus_ops_init = 0) →
        (bootrom_main_unipro c env bfs fb bs).countP isGreybusLoad = 0 ∧
          jump_to_image ∉ bootrom_main_unipro c env bfs fb bs)) ∧
    (∀ rc, init Medium.spi rc ∉ bootrom_main_unipro c env bfs fb bs) ∧
    (bootrom_main_unipro c env bfs fb bs).countP isSpiLoad = 0 ∧
    (bootrom_main_unipro c env bfs fb bs).countP isGreybusLoad ≤ 1 ∧
    (∀ rc s, rc ≠ 0 →
      load_tftf_image Medium.greybus rc s ∈ bootrom_main_unipro c env bfs fb bs →
      (callsAfter isGreybusLoad (bootrom_main_unipro c env bfs fb bs)).all
          (fun e => !isLoad e) = true ∧
        jump_to_image ∉ bootrom_main_unipro c env bfs fb bs) := by
  generalize hT : bootrom_main_unipro c env bfs fb bs = t
  unfold bootrom_main_unipro at hT
  simp only [] at hT
  split_ifs at hT <;> subst hT <;>
    simp_all [callsBefore_cons, callsAfter_cons, isHalt, isGreybusLoad, isSpiLoad, isLoad,
      callsBefore, callsAfter, List.countP_cons]

theorem fallback_boot (c : Consts) (env : Env) (bfs : Bool) :
    FallbackProp env (bootrom_main_boot c env bfs) := by
  generalize hT : bootrom_main_boot c env bfs = t
  unfold bootrom_main_boot at hT
  simp only [] at hT
  unfold FallbackProp
  split_ifs at hT <;> subst hT
  · simp_all [callsBefore_cons, callsAfter_cons, isHalt, isGreybusLoad, isSpiLoad, isLoad,
      callsBefore, callsAfter, List.countP_cons]
  · simp_all [callsBefore_cons, callsAfter_cons, isHalt, isGreybusLoad, isSpiLoad, isLoad,
      callsBefore, callsAfter, List.countP_cons]
  · obtain ⟨i1, _, i3, i4, i5⟩ := fallback_unipro c env false true c.INIT_STATUS_SPI_BOOT_STARTED
    refine ⟨fun _ _ => ?_, ?_, ?_, ?_⟩
    · simpa [callsBefore_cons, isHalt, isGreybusLoad, List.countP_cons] using i1 rfl
    · simp [List.countP_cons, isSpiLoad, i3]
    · simpa [List.countP_cons, isGreybusLoad] using i4
    · simpa [callsAfter_cons, isGreybusLoad] using i5
  · obtain ⟨i1, _, i3, i4, i5⟩ := fallback_unipro c env false true c.INIT_STATUS_OPERATING
    refine ⟨fun _ _ => ?_, ?_, ?_, ?_⟩
    · simpa [callsBefore_cons, isHalt, isGreybusLoad, List.countP_cons] using i1 rfl
    · simp [List.countP_cons, isSpiLoad, i3]
    · simpa [List.countP_cons, isGreybusLoad] using i4
    · simpa [callsAfter_cons, isGreybusLoad] using i5
  · obtain ⟨_, i2, i3, i4, i5⟩ := fallback_unipro c env bfs false c.INIT_STATUS_OPERATING
    exact ⟨fun h => absurd h (i2 _), by simp [i3], i4, i5⟩

theorem fallback_keys (c : Consts) (env : Env) :
    FallbackProp env (bootrom_main_keys c env) := by
  generalize hT : bootrom_main_keys c env = t
  unfold bootrom_main_keys at hT
  simp only [] at hT
  have hc := boot_control_calls c env true
  rcases hb : boot_control c env true with ⟨tc, r⟩
  rw [hb] at hT hc
  unfold FallbackProp
  cases r with
  | none =>
    simp only [] at hT hc
    subst hc
    subst hT
    simp [callsAfter_cons, isGreybusLoad, isSpiLoad, List.countP_cons]
  | some b =>
    simp only [] at hT hc
    subst hc
    split_ifs at hT <;> subst hT
    · simp [callsAfter_cons, isGreybusLoad, isSpiLoad, List.countP_cons]
    · obtain ⟨i1, i3, i4, i5⟩ := fallback_boot c env b
      refine ⟨fun h hf => ?_, ?_, ?_, ?_⟩
      · simp at h
        simpa [callsBefore_cons, isHalt, isGreybusLoad, List.countP_cons] using i1 h hf
      · simpa [List.countP_cons, isSpiLoad] using i3
      · simpa [List.countP_cons, isGreybusLoad] using i4
      · simpa [callsAfter_cons, isGreybusLoad] using i5

theorem fallback_main (c : Consts) (env : Env) :
    FallbackProp env (bootrom_main c env) := by
  generalize hT : bootrom_main c env = t
  unfold bootrom_main at hT
  simp only [] at hT
  unfold FallbackProp
  split_ifs at hT <;> subst hT
  all_goals first
    | (simp [callsAfter_cons, isGreybusLoad, isSpiLoad, List.countP_cons]; done)
    | (obtain ⟨i1, i3, i4, i5⟩ := fallback_keys c env
       refine ⟨fun h hf => ?_, ?_, ?_, ?_⟩
       · simp at h
         simpa [callsBefore_cons, isHalt, isGreybusLoad, List.countP_cons] using i1 h hf
       · simpa [List.countP_cons, isSpiLoad] using i3
       · simpa [List.countP_cons, isGreybusLoad] using i4
       · simpa [callsAfter_cons, isGreybusLoad] using i5)

/-- C4 (amended): in every run in which the flash path is chosen and the flash
attempt fails, exactly one `load_tftf_image` call over `greybus_ops` is made
before any halt provided the fabric bring-up succeeds (`greybus_init` and
`greybus_ops.init` return 0); when the bring-up fails the run makes no fabric
load and ends in a halt.  No run loads more than once per medium, and in every
run in which the fabric load fails no further load on any medium follows it and
the run ends in a halt. -/
theorem fallback_attempts (c : Consts) (env : Env) :
    (init Medium.spi env.spi_init ∈ bootrom_main c env →
      (env.locate_ffff_element_on_storage ≠ 0 ∨ env.spi_load.1 ≠ 0) →
        (env.greybus_init = 0 ∧ env.greybus_ops_init = 0 →
          (callsBefore isHalt (bootrom_main c env)).countP isGreybusLoad = 1) ∧
        (¬(env.greybus_init = 0 ∧ env.greybus_ops_init = 0) →
          (bootrom_main c env).countP isGreybusLoad = 0 ∧
            ∃ st, [halt_and_catch_fire st] <:+ bootrom_main c env)) ∧
    (bootrom_main c env).countP isSpiLoad ≤ 1 ∧
    (bootrom_main c env).countP isGreybusLoad ≤ 1 ∧
    (∀ rc s, rc ≠ 0 → load_tftf_image Medium.greybus rc s ∈ bootrom_main c env →
      (callsAfter isGreybusLoad (bootrom_main c env)).all (fun e => !isLoad e) = true ∧
        ∃ st, [halt_and_catch_fire st] <:+ bootrom_main c env) := by
  obtain ⟨i1, i3, i4, i5⟩ := fallback_main c env
  have he := ends_main c env
  have halts : jump_to_image ∉ bootrom_main c env →
      ∃ st, [halt_and_catch_fire st] <:+ bootrom_main c env := by
    intro hj
    rcases he with ⟨h1, _, _⟩ | ⟨st, h1, _, _⟩
    · exact absurd (h1.subset (List.mem_singleton.mpr rfl)) hj
    · exact ⟨st, h1⟩
  refine ⟨fun h hf => ⟨(i1 h hf).1, fun hb => ?_⟩, i3, i4, fun rc s hrc hm => ?_⟩
  · exact ⟨((i1 h hf).2 hb).1, halts ((i1 h hf).2 hb).2⟩
  · exact ⟨(i5 rc s hrc hm).1, halts (i5 rc s hrc hm).2⟩

/-- C4 applied to a run that falls back from flash to a working fabric. -/
theorem fallback_attempts_witness :
    (callsBefore isHalt (bootrom_main sampleConsts fallbackEnv)).countP isGreybusLoad = 1 :=
  ((fallback_attempts sampleConsts fallbackEnv).1 (by decide) (by decide)).1 (by decide)

/-- C4 as stated fails: the flash path is chosen and the flash attempt fails,
yet the run halts (on the `greybus_init` failure) without any
`load_tftf_image` call over `greybus_ops`. -/
theorem fallback_counterexample :
    init Medium.spi fallbackNoFabricEnv.spi_init ∈
      bootrom_main sampleConsts fallbackNoFabricEnv ∧
    fallbackNoFabricEnv.locate_ffff_element_on_storage ≠ 0 ∧
    [greybus_init 1, set_last_error, halt_and_catch_fire 0] <:+
      bootrom_main sampleConsts fallbackNoFabricEnv ∧
    (callsBefore isHalt (bootrom_main sampleConsts fallbackNoFabricEnv)).countP
      isGreybusLoad = 0 := by
  decide

/-! ## Medium selection -/

/-- C5: when the boot-control attribute read succeeds and the previous boot
status has no `INIT_STATUS_FAILED` bit, `boot_control` returns, leaving in
`*boot_from_spi`: false whenever `bootctrl & FORCE_UNIPRO_BOOT` is non-zero;
otherwise true exactly when the previous status masked with
`INIT_STATUS_STATUS_MASK` is one of the two flash-boot-finished values.  The
result is the same for any other entry value of `*boot_from_spi` and any other
previous status (read successfully, not failed) that agrees on the bits of
`INIT_STATUS_STATUS_MASK`, whatever its remaining bits. -/
theorem boot_control_selects_medium (c : Consts) (env : Env) (b0 : Bool)
    (hread : env.chip_unipro_attr_read = 0)
    (hok : env.chip_get_boot_status &&& c.INIT_STATUS_FAILED = 0) :
    (env.bootctrl &&& c.FORCE_UNIPRO_BOOT ≠ 0 →
      (boot_control c env b0).2 = some false) ∧
    (env.bootctrl &&& c.FORCE_UNIPRO_BOOT = 0 →
      (boot_control c env b0).2 =
        some (decide
          (env.chip_get_boot_status &&& c.INIT_STATUS_STATUS_MASK =
              c.INIT_STATUS_TRUSTED_SPI_FLASH_BOOT_FINISHED ∨
            env.chip_get_boot_status &&& c.INIT_STATUS_STATUS_MASK =
              c.INIT_STATUS_UNTRUSTED_SPI_FLASH_BOOT_FINISHED))) ∧
    (∀ (env' : Env) (b0' : Bool),
      env'.chip_unipro_attr_read = 0 →
      env'.chip_get_boot_status &&& c.INIT_STATUS_FAILED = 0 →
      env'.bootctrl = env.bootctrl →
      env'.chip_get_boot_status &&& c.INIT_STATUS_STATUS_MASK =
        env.chip_get_boot_status &&& c.INIT_STATUS_STATUS_MASK →
      (boot_control c env' b0').2 = (boot_control c env b0).2) := by
  refine ⟨fun hf => ?_, fun hf => ?_, fun env' b0' hread' hok' hb hp => ?_⟩
  · simp [boot_control, hread, hok, hf]
  · simp [boot_control, hread, hok, hf]
  · simp [boot_control, hread, hok, hread', hok', hb, hp]

/-- C5 applied to the sample run: previous status "trusted flash boot
finished" with an error code in its low bits, no force flag. -/
theorem boot_control_selects_medium_witness :
    (boot_control sampleConsts { sampleEnv with chip_get_boot_status := 0x02000017 }
      false).2 = some true :=
  ((boot_control_selects_medium sampleConsts
      { sampleEnv with chip_get_boot_status := 0x02000017 } false
      (by decide) (by decide)).2.1 (by decide)).trans (by decide)

/-! ## Terminal status advertised before the jump -/

theorem status_unipro (c : Consts) (env : Env) (bfs fb : Bool) (bs : Nat) :
    flashFailed (bootrom_main_unipro c env bfs fb bs) = false ∧
    (jump_to_image ∈ bootrom_main_unipro c env bfs fb bs →
      ∃ s, lastLoad (bootrom_main_unipro c env bfs fb bs) = some (Medium.greybus, 0, s) ∧
        [chip_advertise_boot_status (uniproFinished c fb s), jump_to_image] <:+
          bootrom_main_unipro c env bfs fb bs) := by
  generalize hT : bootrom_main_unipro c env bfs fb bs = t
  unfold bootrom_main_unipro at hT
  simp only [] at hT
  split_ifs at hT <;> subst hT <;>
    refine ⟨by simp [flashFailed, isSpiAbort], fun h => ⟨env.greybus_load.2, ?_, ?_⟩⟩ <;>
    simp_all [lastLoad, loadOf, uniproFinished, List.suffix_cons_iff]

theorem status_boot (c : Consts) (env : Env) (bfs : Bool) :
    LaunchStatus c (bootrom_main_boot c env bfs) := by
  intro h
  generalize hT : bootrom_main_boot c env bfs = t at h ⊢
  unfold bootrom_main_boot at hT
  simp only [] at hT
  split_ifs at hT <;> subst hT
  · refine Or.inl ⟨env.spi_load.2,
      env.merge_errno_with_boot_status 205 (spiFinished c env.spi_load.2), ?_, ?_⟩
    · simp_all [lastLoad, loadOf]
    · simp_all [spiFinished, List.suffix_cons_iff]
  · refine Or.inl ⟨env.spi_load.2,
      env.merge_errno_with_boot_status 205 (spiFinished c env.spi_load.2), ?_, ?_⟩
    · simp_all [lastLoad, loadOf]
    · simp_all [spiFinished, List.suffix_cons_iff]
  · simp at h
    obtain ⟨hf, hj⟩ := status_unipro c env false true c.INIT_STATUS_SPI_BOOT_STARTED
    obtain ⟨s, h1, h2⟩ := hj h
    exact Or.inr ⟨s, by simp [lastLoad_cons, loadOf, h1],
      by simp [flashFailed, isSpiAbort, List.suffix_cons_iff, h2]⟩
  · simp at h
    obtain ⟨hf, hj⟩ := status_unipro c env false true c.INIT_STATUS_OPERATING
    obtain ⟨s, h1, h2⟩ := hj h
    exact Or.inr ⟨s, by simp [lastLoad_cons, loadOf, h1],
      by simp [flashFailed, isSpiAbort, List.suffix_cons_iff, h2]⟩
  · obtain ⟨hf, hj⟩ := status_unipro c env bfs false c.INIT_STATUS_OPERATING
    obtain ⟨s, h1, h2⟩ := hj h
    exact Or.inr ⟨s, h1, by rw [hf]; exact h2⟩

theorem status_keys (c : Consts) (env : Env) :
    LaunchStatus c (bootrom_main_keys c env) := by
  intro h
  generalize hT : bootrom_main_keys c env = t at h ⊢
  unfold bootrom_main_keys at hT
  simp only [] at hT
  have hc := boot_control_calls c env true
  rcases hb : boot_control c env true with ⟨tc, r⟩
  rw [hb] at hT hc
  cases r with
  | none => subst hT; simp_all
  | some b =>
    simp only [] at hT hc
    subst hc
    split_ifs at hT <;> subst hT
    · simp_all
    · simp at h
      rcases status_boot c env _ h with ⟨s, v, h1, h2⟩ | ⟨s, h1, h2⟩
      · exact Or.inl ⟨s, v, by simp [lastLoad_cons, loadOf, h1],
          by simp [List.suffix_cons_iff, h2]⟩
      · exact Or.inr ⟨s, by simp [lastLoad_cons, loadOf, h1],
          by simpa [flashFailed, isSpiAbort, List.suffix_cons_iff] using h2⟩

theorem status_main (c : Consts) (env : Env) :
    LaunchStatus c (bootrom_main c env) := by
  intro h
  generalize hT : bootrom_main c env = t at h ⊢
  unfold bootrom_main at hT
  simp only [] at hT
  split_ifs at hT <;> subst hT
  all_goals first
    | (simp at h; done)
    | (simp at h
       rcases status_keys c env h with ⟨s, v, h1, h2⟩ | ⟨s, h1, h2⟩
       · exact Or.inl ⟨s, v, by simp [lastLoad_cons, loadOf, h1],
           by simp [List.suffix_cons_iff, h2]⟩
       · exact Or.inr ⟨s, by simp [lastLoad_cons, loadOf, h1],
           by simpa [flashFailed, isSpiAbort, List.suffix_cons_iff] using h2⟩)

/-- C6: on every run of `bootrom_main` that reaches `jump_to_image`, the call
just before the jump is `chip_advertise_boot_status`, with the terminal value
of the launching medium and trust classification: on the flash path the
result of `merge_errno_with_boot_status` applied to the trusted or untrusted
flash-boot-finished value; on the fabric path the trusted or untrusted
UniPro-boot-finished value, in its `FALLLBACK` variant exactly when the run
had given up on a flash attempt before. -/
theorem terminal_status_advertised (c : Consts) (env : Env)
    (h : jump_to_image ∈ bootrom_main c env) :
    (∃ s v, lastLoad (bootrom_main c env) = some (Medium.spi, 0, s) ∧
      [merge_errno_with_boot_status
          (if s ≠ 0 then c.INIT_STATUS_TRUSTED_SPI_FLASH_BOOT_FINISHED
           else c.INIT_STATUS_UNTRUSTED_SPI_FLASH_BOOT_FINISHED) v,
       chip_advertise_boot_status v, jump_to_image] <:+ bootrom_main c env) ∨
    (∃ s, lastLoad (bootrom_main c env) = some (Medium.greybus, 0, s) ∧
      [chip_advertise_boot_status
          (if flashFailed (bootrom_main c env) then
            (if s ≠ 0 then c.INIT_STATUS_FALLLBACK_TRUSTED_UNIPRO_BOOT_FINISHED
             else c.INIT_STATUS_FALLLBACK_UNTRUSTED_UNIPRO_BOOT_FINISHED)
           else
            (if s ≠ 0 then c.INIT_STATUS_TRUSTED_UNIPRO_BOOT_FINISHED
             else c.INIT_STATUS_UNTRUSTED_UNIPRO_BOOT_FINISHED)),
       jump_to_image] <:+ bootrom_main c env) :=
  status_main c env h

/-- C6 applied to a run that falls back from flash and launches an unsigned
image from the fabric. -/
theorem terminal_status_advertised_witness :
    (∃ s v, lastLoad (bootrom_main sampleConsts fallbackUntrustedEnv) =
        some (Medium.spi, 0, s) ∧
      [merge_errno_with_boot_status
          (if s ≠ 0 then sampleConsts.INIT_STATUS_TRUSTED_SPI_FLASH_BOOT_FINISHED
           else sampleConsts.INIT_STATUS_UNTRUSTED_SPI_FLASH_BOOT_FINISHED) v,
       chip_advertise_boot_status v, jump_to_image] <:+
        bootrom_main sampleConsts fallbackUntrustedEnv) ∨
    (∃ s, lastLoad (bootrom_main sampleConsts fallbackUntrustedEnv) =
        some (Medium.greybus, 0, s) ∧
      [chip_advertise_boot_status
          (if flashFailed (bootrom_main sampleConsts fallbackUntrustedEnv) then
            (if s ≠ 0 then sampleConsts.INIT_STATUS_FALLLBACK_TRUSTED_UNIPRO_BOOT_FINISHED
             else sampleConsts.INIT_STATUS_FALLLBACK_UNTRUSTED_UNIPRO_BOOT_FINISHED)
           else
            (if s ≠ 0 then sampleConsts.INIT_STATUS_TRUSTED_UNIPRO_BOOT_FINISHED
             else sampleConsts.INIT_STATUS_UNTRUSTED_UNIPRO_BOOT_FINISHED)),
       jump_to_image] <:+ bootrom_main sampleConsts fallbackUntrustedEnv) :=
  terminal_status_advertised sampleConsts fallbackUntrustedEnv (by decide)

/-! ## A failed flash attempt falls back to the fabric -/

theorem flashFallback_boot (c : Consts) (env : Env) (bfs : Bool) :
    FlashFallback c env (bootrom_main_boot c env bfs) := by
  intro h hf
  generalize hT : bootrom_main_boot c env bfs = t at h ⊢
  unfold bootrom_main_boot at hT
  simp only [] at hT
  split_ifs at hT <;> subst hT
  · simp_all
  · simp_all
  · simp [callsBefore_cons, callsAfter_cons, isSpiAbort, isHalt]
  · simp [callsBefore_cons, callsAfter_cons, isSpiAbort, isHalt]
  · exact absurd h ((fallback_unipro c env bfs false c.INIT_STATUS_OPERATING).2.1 _)

theorem flashFallback_keys (c : Consts) (env : Env) :
    FlashFallback c env (bootrom_main_keys c env) := by
  intro h hf
  generalize hT : bootrom_main_keys c env = t at h ⊢
  unfold bootrom_main_keys at hT
  simp only [] at hT
  have hc := boot_control_calls c env true
  rcases hb : boot_control c env true with ⟨tc, r⟩
  rw [hb] at hT hc
  cases r with
  | none => subst hT; simp_all
  | some b =>
    simp only [] at hT hc
    subst hc
    split_ifs at hT <;> subst hT
    · simp_all
    · simp at h
      obtain ⟨h1, h2, bs, h3⟩ := flashFallback_boot c env b h hf
      exact ⟨by simp [h1], by simpa [callsBefore_cons, isSpiAbort, isHalt] using h2,
        bs, by simpa [callsAfter_cons, isSpiAbort] using h3⟩

theorem flashFallback_main (c : Consts) (env : Env) :
    FlashFallback c env (bootrom_main c env) := by
  intro h hf
  generalize hT : bootrom_main c env = t at h ⊢
  unfold bootrom_main at hT
  simp only [] at hT
  split_ifs at hT <;> subst hT
  all_goals first
    | (simp at h; done)
    | (simp at h
       obtain ⟨h1, h2, bs, h3⟩ := flashFallback_keys c env h hf
       exact ⟨by simp [h1], by simpa [callsBefore_cons, isSpiAbort, isHalt] using h2,
         bs, by simpa [callsAfter_cons, isSpiAbort] using h3⟩)

/-- C7: in every run of `bootrom_main` in which the flash path is chosen and
the flash attempt fails (element not located, or `load_tftf_image` over
`spi_ops` non-zero), `spi_ops.finish(false, false)` is called, no
`halt_and_catch_fire` precedes it, and the calls after it are
`chip_clear_image_loading_ram` followed by the fabric part of `bootrom_main`
run with `fallback_boot_unipro` set, which starts with `greybus_init`. -/
theorem flash_failure_falls_back (c : Consts) (env : Env)
    (hsel : init Medium.spi env.spi_init ∈ bootrom_main c env)
    (hfail : env.locate_ffff_element_on_storage ≠ 0 ∨ env.spi_load.1 ≠ 0) :
    finish Medium.spi false 0 (env.spi_finish false 0) ∈ bootrom_main c env ∧
    (callsBefore isSpiAbort (bootrom_main c env)).all (fun e => !isHalt e) = true ∧
    ∃ boot_status rest,
      callsAfter isSpiAbort (bootrom_main c env) =
        chip_clear_image_loading_ram :: greybus_init env.greybus_init :: rest ∧
      greybus_init env.greybus_init :: rest =
        bootrom_main_unipro c env false true boot_status := by
  obtain ⟨h1, h2, bs, h3⟩ := flashFallback_main c env hsel hfail
  refine ⟨h1, h2, bs, (bootrom_main_unipro c env false true bs).tail, ?_, ?_⟩
  · rw [h3]; simp [bootrom_main_unipro]
  · simp [bootrom_main_unipro]

/-- C7 applied to a run in which the flash image fails to load. -/
theorem flash_failure_falls_back_witness :
    finish Medium.spi false 0 (fallbackUntrustedEnv.spi_finish false 0) ∈
      bootrom_main sampleConsts fallbackUntrustedEnv ∧
    (callsBefore isSpiAbort (bootrom_main sampleConsts fallbackUntrustedEnv)).all
      (fun e => !isHalt e) = true ∧
    ∃ boot_status rest,
      callsAfter isSpiAbort (bootrom_main sampleConsts fallbackUntrustedEnv) =
        chip_clear_image_loading_ram ::
          greybus_init fallbackUntrustedEnv.greybus_init :: rest ∧
      greybus_init fallbackUntrustedEnv.greybus_init :: rest =
        bootrom_main_unipro sampleConsts fallbackUntrustedEnv false true boot_status :=
  flash_failure_falls_back sampleConsts fallbackUntrustedEnv (by decide) (by decide)

/-! ## A failing `spi_ops.init()` -/

/-- C8, the code at a failing input: `spi_ops.init()` returns -1, and the run
still goes on to locate and load the stage-3 image over `spi_ops`, advertises
`INIT_STATUS_SPI_BOOT_STARTED` and jumps into the flash image; it makes no
`spi_ops.finish(false, false)` call and no fabric attempt. -/
theorem spi_init_result_ignored :
    init Medium.spi (-1) ∈ bootrom_main sampleConsts spiInitFailsEnv ∧
    callsAfter isSpiInit (bootrom_main sampleConsts spiInitFailsEnv) =
      [locate_ffff_element_on_storage Medium.spi 0,
       chip_advertise_boot_status sampleConsts.INIT_STATUS_SPI_BOOT_STARTED,
       load_tftf_image Medium.spi 0 1,
       finish Medium.spi true 1 0,
       merge_errno_with_boot_status 0x02000000 0x02000000,
       dbgprintx32 0x02000000,
       merge_errno_with_boot_status 0x02000000 0x02000000,
       chip_advertise_boot_status 0x02000000,
       jump_to_image] := by
  decide

theorem spi_init_unused_boot (c : Consts) (env : Env) (rc : Int) (bfs : Bool) :
    (bootrom_main_boot c { env with spi_init := rc } bfs).filter (fun e => !isSpiInit e) =
      (bootrom_main_boot c env bfs).filter (fun e => !isSpiInit e) := by
  have hu : ∀ b f s, bootrom_main_unipro c { env with spi_init := rc } b f s =
      bootrom_main_unipro c env b f s := fun _ _ _ => rfl
  unfold bootrom_main_boot
  simp only [hu]
  split_ifs <;> simp [List.filter_cons, isSpiInit]

/-- The return value of `spi_ops.init()` never influences a run: two runs whose
collaborators differ only in that value make the same calls, apart from the
value recorded for `spi_ops.init()` itself. -/
theorem spi_init_result_unused (c : Consts) (env : Env) (rc : Int) :
    (bootrom_main c { env with spi_init := rc }).filter (fun e => !isSpiInit e) =
      (bootrom_main c env).filter (fun e => !isSpiInit e) := by
  have hk : (bootrom_main_keys c { env with spi_init := rc }).filter (fun e => !isSpiInit e) =
      (bootrom_main_keys c env).filter (fun e => !isSpiInit e) := by
    have hbc : boot_control c { env with spi_init := rc } true = boot_control c env true := rfl
    unfold bootrom_main_keys
    simp only [hbc]
    rcases boot_control c env true with ⟨tc, r⟩
    cases r with
    | none => rfl
    | some b =>
      simp only []
      split_ifs
      · rfl
      · simp only [List.filter_append, spi_init_unused_boot c env rc b]
  unfold bootrom_main
  simp only []
  split_ifs <;> first | rfl | simp only [List.filter_append, hk]

/-! ## Fatal initialisation failures -/

theorem lastAdvertised_cons (e : Event) (t : List Event) :
    lastAdvertised (e :: t) = (lastAdvertised t).or (advertisedOf e) := by
  have h : lastAdvertised ([e] ++ t) = (lastAdvertised t).or (lastAdvertised [e]) := by
    simp only [lastAdvertised, List.filterMap_append, List.getLast?_append]
  simp only [List.singleton_append] at h
  rw [h]
  cases hl : advertisedOf e <;> simp [lastAdvertised, hl]

theorem setup_free_unipro (c : Consts) (env : Env) (bfs fb : Bool) (bs : Nat) :
    (bootrom_main_unipro c env bfs fb bs).all (fun e => !isSetup e) = true := by
  generalize hT : bootrom_main_unipro c env bfs fb bs = t
  unfold bootrom_main_unipro at hT
  simp only [] at hT
  split_ifs at hT <;> subst hT <;> simp [isSetup]

theorem setup_free_boot (c : Consts) (env : Env) (bfs : Bool) :
    (bootrom_main_boot c env bfs).all (fun e => !isSetup e) = true := by
  generalize hT : bootrom_main_boot c env bfs = t
  unfold bootrom_main_boot at hT
  simp only [] at hT
  have ih := setup_free_unipro c env
  split_ifs at hT <;> subst hT <;> simp [isSetup] <;> simpa [isSetup] using ih _ _ _

theorem not_mem_of_setup_free (t : List Event) (e : Event)
    (h : t.all (fun e => !isSetup e) = true) (he : isSetup e = true) : e ∉ t := by
  intro hm
  have := List.all_eq_true.mp h e hm
  simp [he] at this

theorem currentStatus_cons_other (c : Consts) (e : Event) (t : List Event)
    (h : advertisedOf e = none) : currentStatus c (e :: t) = currentStatus c t := by
  simp [currentStatus, lastAdvertised_cons, h]

theorem currentStatus_cons_operating (c : Consts) (t : List Event) :
    currentStatus c (chip_advertise_boot_status c.INIT_STATUS_OPERATING :: t) =
      currentStatus c t := by
  simp only [currentStatus, lastAdvertised_cons, advertisedOf]
  cases lastAdvertised t <;> simp

theorem boot_control_halts_iff (c : Consts) (env : Env) (b : Bool) :
    (boot_control c env b).2 = none ↔
      (env.chip_unipro_attr_read ≠ 0 ∨
        env.chip_get_boot_status &&& c.INIT_STATUS_FAILED ≠ 0) := by
  unfold boot_control
  simp only []
  split_ifs <;> simp_all

theorem fatal_unipro (c : Consts) (env : Env) (bfs fb : Bool) (bs : Nat) :
    (∀ rc, rc ≠ 0 → greybus_init rc ∈ bootrom_main_unipro c env bfs fb bs →
      callsAfter isGreybusInit (bootrom_main_unipro c env bfs fb bs) =
          [set_last_error, halt_and_catch_fire bs] ∧
        lastAdvertised (bootrom_main_unipro c env bfs fb bs) = none) ∧
    (∀ rc, rc ≠ 0 → init Medium.greybus rc ∈ bootrom_main_unipro c env bfs fb bs →
      ∃ s, lastAdvertised (bootrom_main_unipro c env bfs fb bs) = some s ∧
        callsAfter isGreybusOpsInit (bootrom_main_unipro c env bfs fb bs) =
          [halt_and_catch_fire s]) := by
  generalize hT : bootrom_main_unipro c env bfs fb bs = t
  unfold bootrom_main_unipro at hT
  simp only [] at hT
  split_ifs at hT <;> subst hT <;>
    simp_all [callsAfter_cons, isGreybusInit, isGreybusOpsInit, lastAdvertised, advertisedOf,
      callsAfter]

theorem fatal_boot (c : Consts) (env : Env) (bfs : Bool) :
    FabricFatal c (bootrom_main_boot c env bfs) := by
  generalize hT : bootrom_main_boot c env bfs = t
  unfold bootrom_main_boot at hT
  simp only [] at hT
  unfold FabricFatal
  split_ifs at hT <;> subst hT
  · simp
  · simp
  · obtain ⟨i5, i6⟩ := fatal_unipro c env false true c.INIT_STATUS_SPI_BOOT_STARTED
    refine ⟨fun rc hrc h => ?_, fun rc hrc h => ?_⟩
    · simp at h
      obtain ⟨h1, h2⟩ := i5 rc hrc h
      simp [callsAfter_cons, isGreybusInit, h1, currentStatus, lastAdvertised_cons, h2,
        advertisedOf]
    · simp at h
      obtain ⟨s, h1, h2⟩ := i6 rc hrc h
      simp [callsAfter_cons, isGreybusOpsInit, h2, currentStatus, lastAdvertised_cons, h1,
        advertisedOf]
  · obtain ⟨i5, i6⟩ := fatal_unipro c env false true c.INIT_STATUS_OPERATING
    refine ⟨fun rc hrc h => ?_, fun rc hrc h => ?_⟩
    · simp at h
      obtain ⟨h1, h2⟩ := i5 rc hrc h
      simp [callsAfter_cons, isGreybusInit, h1, currentStatus, lastAdvertised_cons, h2,
        advertisedOf]
    · simp at h
      obtain ⟨s, h1, h2⟩ := i6 rc hrc h
      simp [callsAfter_cons, isGreybusOpsInit, h2, currentStatus, lastAdvertised_cons, h1,
        advertisedOf]
  · obtain ⟨i5, i6⟩ := fatal_unipro c env bfs false c.INIT_STATUS_OPERATING
    refine ⟨fun rc hrc h => ?_, fun rc hrc h => ?_⟩
    · obtain ⟨h1, h2⟩ := i5 rc hrc h
      simp [h1, currentStatus, h2]
    · obtain ⟨s, h1, h2⟩ := i6 rc hrc h
      simp [h2, currentStatus, h1]

theorem fatal_keys (c : Consts) (env : Env) :
    SetupFatal c (bootrom_main_keys c env) ∧ FabricFatal c (bootrom_main_keys c env) ∧
      ∀ rc, efuse_init rc ∉ bootrom_main_keys c env := by
  generalize hT : bootrom_main_keys c env = t
  unfold bootrom_main_keys at hT
  simp only [] at hT
  have hc := boot_control_calls c env true
  have hh := boot_control_halts_iff c env true
  rcases hb : boot_control c env true with ⟨tc, r⟩
  rw [hb] at hT hc hh
  unfold SetupFatal FabricFatal
  cases r with
  | none =>
    simp only [] at hT hc
    subst hc
    subst hT
    simp [callsAfter_cons, isAttrRead, isTransportInit, callsAfter]
  | some b =>
    simp only [] at hT hc
    subst hc
    have hcond : env.chip_unipro_attr_read = 0 ∧
        env.chip_get_boot_status &&& c.INIT_STATUS_FAILED = 0 := by
      simpa [not_or] using hh
    obtain ⟨hrd, hnf⟩ := hcond
    have hfree := setup_free_boot c env b
    have nomem : ∀ e, isSetup e = true → e ∉ bootrom_main_boot c env b :=
      fun e he => not_mem_of_setup_free _ e hfree he
    obtain ⟨i5, i6⟩ := fatal_boot c env b
    split_ifs at hT with hbt <;> subst hT
    · refine ⟨⟨fun rc v hrc h => ?_, fun p v hp hv hf => ?_, fun rc hrc h => ?_⟩,
        ⟨fun rc hrc h => ?_, fun rc hrc h => ?_⟩, fun rc => ?_⟩
      · simp at h; exact absurd (h.1 ▸ hrd) hrc
      · simp at hp; exact absurd (hp ▸ hnf) hf
      · simp [callsAfter_cons, isBootType, isTransportInit]
      · simp at h
      · simp at h
      · simp
    · have hbt0 : env.chip_advertise_boot_type = 0 := by simpa using hbt
      refine ⟨⟨fun rc v hrc h => ?_, fun p v hp hv hf => ?_, fun rc hrc h => ?_⟩,
        ⟨fun rc hrc h => ?_, fun rc hrc h => ?_⟩, fun rc => ?_⟩
      · simp [nomem _ (rfl : isSetup (chip_unipro_attr_read rc v) = true)] at h
        exact absurd (h.1 ▸ hrd) hrc
      · simp [nomem _ (rfl : isSetup (chip_get_boot_status p) = true)] at hp
        exact absurd (hp ▸ hnf) hf
      · simp [nomem _ (rfl : isSetup (chip_advertise_boot_type rc) = true)] at h
        exact absurd (h ▸ hbt0) hrc
      · simp at h
        simpa [callsAfter_cons, isGreybusInit, currentStatus_cons_other,
          currentStatus_cons_operating, advertisedOf] using i5 rc hrc h
      · simp at h
        simpa [callsAfter_cons, isGreybusOpsInit, currentStatus_cons_other,
          currentStatus_cons_operating, advertisedOf] using i6 rc hrc h
      · simp [nomem _ (rfl : isSetup (efuse_init rc) = true)]

/-- C9: each fatal initialisation failure is followed by nothing but the halt.
If `efuse_init`, the boot-control attribute read or `chip_advertise_boot_type`
is called and returns non-zero, or the attribute read succeeds but the previous
boot status has the `INIT_STATUS_FAILED` bit, the only call after the failing
step is `halt_and_catch_fire(INIT_STATUS_OPERATING)` and the run initialises
no transport.  If `greybus_init` is called and returns non-zero, the only calls
after it are `set_last_error` and the halt; if `greybus_ops.init` is called and
returns non-zero, the only call after it is the halt; both halts carry the
status current at that point (the last one advertised).  In particular no
`load_tftf_image` and no `jump_to_image` follows any of these failures. -/
theorem fatal_failures_halt (c : Consts) (env : Env) :
    (∀ rc, rc ≠ 0 → efuse_init rc ∈ bootrom_main c env →
      callsAfter isEfuseInit (bootrom_main c env) =
          [halt_and_catch_fire c.INIT_STATUS_OPERATING] ∧
        (bootrom_main c env).all (fun e => !isTransportInit e) = true) ∧
    (∀ rc v, rc ≠ 0 → chip_unipro_attr_read rc v ∈ bootrom_main c env →
      callsAfter isAttrRead (bootrom_main c env) =
          [halt_and_catch_fire c.INIT_STATUS_OPERATING] ∧
        (bootrom_main c env).all (fun e => !isTransportInit e) = true) ∧
    (∀ p v, chip_get_boot_status p ∈ bootrom_main c env →
      chip_unipro_attr_read 0 v ∈ bootrom_main c env →
      p &&& c.INIT_STATUS_FAILED ≠ 0 →
      callsAfter isAttrRead (bootrom_main c env) =
          [halt_and_catch_fire c.INIT_STATUS_OPERATING] ∧
        (bootrom_main c env).all (fun e => !isTransportInit e) = true) ∧
    (∀ rc, rc ≠ 0 → chip_advertise_boot_type rc ∈ bootrom_main c env →
      callsAfter isBootType (bootrom_main c env) =
          [halt_and_catch_fire c.INIT_STATUS_OPERATING] ∧
        (bootrom_main c env).all (fun e => !isTransportInit e) = true) ∧
    (∀ rc, rc ≠ 0 → greybus_init rc ∈ bootrom_main c env →
      callsAfter isGreybusInit (bootrom_main c env) =
        [set_last_error, halt_and_catch_fire (currentStatus c (bootrom_main c env))]) ∧
    (∀ rc, rc ≠ 0 → init Medium.greybus rc ∈ bootrom_main c env →
      callsAfter isGreybusOpsInit (bootrom_main c env) =
        [halt_and_catch_fire (currentStatus c (bootrom_main c env))]) := by
  obtain ⟨⟨k2, k3, k4⟩, ⟨k5, k6⟩, kne⟩ := fatal_keys c env
  generalize hT : bootrom_main c env = t
  unfold bootrom_main at hT
  simp only [] at hT
  split_ifs at hT with hg hu he <;> subst hT
  · refine ⟨fun rc hrc h => ?_, fun rc v hrc h => ?_, fun p v hp hv hf => ?_,
      fun rc hrc h => ?_, fun rc hrc h => ?_, fun rc hrc h => ?_⟩
    · simp [callsAfter_cons, isEfuseInit, isTransportInit]
    · simp at h
    · simp at hp
    · simp at h
    · simp at h
    · simp at h
  · have he0 : env.efuse_init = 0 := by simpa using he
    refine ⟨fun rc hrc h => ?_, fun rc v hrc h => ?_, fun p v hp hv hf => ?_,
      fun rc hrc h => ?_, fun rc hrc h => ?_, fun rc hrc h => ?_⟩
    · simp [kne] at h
      exact absurd (h ▸ he0) hrc
    · simp at h
      simpa [callsAfter_cons, isAttrRead, isTransportInit] using k2 rc v hrc h
    · simp at hp hv
      simpa [callsAfter_cons, isAttrRead, isTransportInit] using k3 p v hp hv hf
    · simp at h
      simpa [callsAfter_cons, isBootType, isTransportInit] using k4 rc hrc h
    · simp at h
      simpa [callsAfter_cons, isGreybusInit, currentStatus_cons_other, advertisedOf]
        using k5 rc hrc h
    · simp at h
      simpa [callsAfter_cons, isGreybusOpsInit, currentStatus_cons_other, advertisedOf]
        using k6 rc hrc h
  · refine ⟨fun rc hrc h => ?_, fun rc v hrc h => ?_, fun p v hp hv hf => ?_,
      fun rc hrc h => ?_, fun rc hrc h => ?_, fun rc hrc h => ?_⟩
    · simp [kne] at h
    · simp at h
      simpa [callsAfter_cons, isAttrRead, isTransportInit] using k2 rc v hrc h
    · simp at hp hv
      simpa [callsAfter_cons, isAttrRead, isTransportInit] using k3 p v hp hv hf
    · simp at h
      simpa [callsAfter_cons, isBootType, isTransportInit] using k4 rc hrc h
    · simp at h
      simpa [callsAfter_cons, isGreybusInit, currentStatus_cons_other, advertisedOf]
        using k5 rc hrc h
    · simp at h
      simpa [callsAfter_cons, isGreybusOpsInit, currentStatus_cons_other, advertisedOf]
        using k6 rc hrc h
  · refine ⟨fun rc hrc h => ?_, fun rc v hrc h => ?_, fun p v hp hv hf => ?_,
      fun rc hrc h => ?_, fun rc hrc h => ?_, fun rc hrc h => ?_⟩
    · simp [kne] at h
    · simp at h
      simpa [callsAfter_cons, isAttrRead, isTransportInit] using k2 rc v hrc h
    · simp at hp hv
      simpa [callsAfter_cons, isAttrRead, isTransportInit] using k3 p v hp hv hf
    · simp at h
      simpa [callsAfter_cons, isBootType, isTransportInit] using k4 rc hrc h
    · simp at h
      simpa [callsAfter_cons, isGreybusInit, currentStatus_cons_other, advertisedOf]
        using k5 rc hrc h
    · simp at h
      simpa [callsAfter_cons, isGreybusOpsInit, currentStatus_cons_other, advertisedOf]
        using k6 rc hrc h

/-- C9 applied to a run in which `efuse_init` fails and to one in which
`greybus_init` fails after a failed flash load. -/
theorem fatal_failures_halt_witness :
    (callsAfter isEfuseInit (bootrom_main sampleConsts efuseFailsEnv) =
        [halt_and_catch_fire sampleConsts.INIT_STATUS_OPERATING] ∧
      (bootrom_main sampleConsts efuseFailsEnv).all (fun e => !isTransportInit e) = true) ∧
    callsAfter isGreybusInit (bootrom_main sampleConsts greybusInitFailsEnv) =
      [set_last_error,
       halt_and_catch_fire
         (currentStatus sampleConsts (bootrom_main sampleConsts greybusInitFailsEnv))] :=
  ⟨(fatal_failures_halt sampleConsts efuseFailsEnv).1 1 (by decide) (by decide),
   (fatal_failures_halt sampleConsts greybusInitFailsEnv).2.2.2.2.1 1 (by decide)
     (by decide)⟩

/-! ## Key generation -/

theorem countP_isKeyGen_of_setup_free (t : List Event)
    (h : t.all (fun e => !isSetup e) = true) : t.countP isKeyGen = 0 := by
  rw [List.countP_eq_zero]
  intro e he hk
  have h1 := List.all_eq_true.mp h e he
  cases e <;> simp [isKeyGen, isSetup] at hk h1

theorem no_efuse_init_of_all (t : List Event)
    (h : t.all (fun e => !isEfuseInit e) = true) : ∀ rc, efuse_init rc ∉ t := by
  intro rc hm
  have := List.all_eq_true.mp h _ hm
  simp [isEfuseInit] at this

theorem keygen_boot (c : Consts) (env : Env) (bfs : Bool) :
    (bootrom_main_boot c env bfs).countP isKeyGen = 0 :=
  countP_isKeyGen_of_setup_free _ (setup_free_boot c env bfs)

theorem keygen_keys (c : Consts) (env : Env) :
    (bootrom_main_keys c env).countP isKeyGen = 1 ∧
      callsBefore isKeyGen (bootrom_main_keys c env) = [tsb_get_ims] := by
  generalize hT : bootrom_main_keys c env = t
  unfold bootrom_main_keys at hT
  simp only [] at hT
  have hc := boot_control_calls c env true
  have hk := keygen_boot c env
  rcases hb : boot_control c env true with ⟨tc, r⟩
  rw [hb] at hT hc
  cases r with
  | none =>
    simp only [] at hT hc
    subst hc
    subst hT
    simp [callsBefore_cons, isKeyGen, List.countP_cons]
  | some b =>
    simp only [] at hT hc
    subst hc
    split_ifs at hT <;> subst hT <;>
      simp [callsBefore_cons, isKeyGen, List.countP_cons, hk]

/-- C10 (amended): a run of `bootrom_main` calls `key_generation` exactly once
unless it halts on an `efuse_init` failure, in which case it never calls it;
and no `load_tftf_image` call on either medium precedes the `key_generation`
call (a run without that call makes no load at all). -/
theorem key_generation_once (c : Consts) (env : Env) :
    ((∀ rc, efuse_init rc ∈ bootrom_main c env → rc = 0) →
      (bootrom_main c env).countP isKeyGen = 1) ∧
    ((∃ rc, rc ≠ 0 ∧ efuse_init rc ∈ bootrom_main c env) →
      (bootrom_main c env).countP isKeyGen = 0) ∧
    (callsBefore isKeyGen (bootrom_main c env)).all (fun e => !isLoad e) = true := by
  obtain ⟨k1, k2⟩ := keygen_keys c env
  obtain ⟨_, _, kne⟩ := fatal_keys c env
  generalize hT : bootrom_main c env = t
  unfold bootrom_main at hT
  simp only [] at hT
  split_ifs at hT with hg hu he <;> subst hT
  · refine ⟨fun h => ?_, fun _ => ?_, ?_⟩
    · exact absurd (h env.efuse_init (by simp)) he
    · simp [List.countP_cons, isKeyGen]
    · simp [callsBefore_cons, isKeyGen, isLoad, callsBefore]
  · have he0 : env.efuse_init = 0 := by simpa using he
    refine ⟨fun _ => ?_, fun h => ?_, ?_⟩
    · simp [List.countP_cons, isKeyGen, k1]
    · obtain ⟨rc, hrc, hm⟩ := h
      simp [kne] at hm
      exact absurd (hm ▸ he0) hrc
    · simp [callsBefore_cons, isKeyGen, isLoad, k2]
  · refine ⟨fun _ => ?_, fun h => ?_, ?_⟩
    · simp [List.countP_cons, isKeyGen, k1]
    · obtain ⟨rc, hrc, hm⟩ := h
      simp [kne] at hm
    · simp [callsBefore_cons, isKeyGen, isLoad, k2]
  · refine ⟨fun _ => ?_, fun h => ?_, ?_⟩
    · simp [List.countP_cons, isKeyGen, k1]
    · obtain ⟨rc, hrc, hm⟩ := h
      simp [kne] at hm
    · simp [callsBefore_cons, isKeyGen, isLoad, k2]

/-- C10 applied to the sample run, which never calls `efuse_init`. -/
theorem key_generation_once_witness :
    (bootrom_main sampleConsts sampleEnv).countP isKeyGen = 1 :=
  (key_generation_once sampleConsts sampleEnv).1
    (fun rc h => absurd h (no_efuse_init_of_all _ (by decide) rc))

/-- C10 as stated fails: on a run that halts on the `efuse_init` failure,
`key_generation` is not called at all. -/
theorem key_generation_counterexample :
    [efuse_init 1, halt_and_catch_fire sampleConsts.INIT_STATUS_OPERATING] <:+
      bootrom_main sampleConsts efuseFailsEnv ∧
    (bootrom_main sampleConsts efuseFailsEnv).countP isKeyGen = 0 := by
  decide

/-! ## Hashed sections -/

theorem and_bit7_eq_zero_iff (x : Nat) : x &&& (1 <<< 7) = 0 ↔ x.testBit 7 = false := by
  constructor
  · intro h
    have h1 : (x &&& (1 <<< 7)).testBit 7 = false := by rw [h]; simp
    have h2 : (1 <<< 7 : Nat) = 2 ^ 7 := by decide
    rw [Nat.testBit_and, h2, Nat.testBit_two_pow_self, Bool.and_true] at h1
    exact h1
  · intro h
    apply Nat.eq_of_testBit_eq
    intro i
    have h2 : (1 <<< 7 : Nat) = 2 ^ 7 := by decide
    rw [Nat.testBit_and, h2, Nat.testBit_two_pow]
    by_cases hi : 7 = i
    · subst hi; simp [h]
    · simp [hi]

theorem testBit7_of_lt_256 (x : Nat) (h : x < 256) : x.testBit 7 = false ↔ x < 128 := by
  rw [Nat.testBit_to_div_mod]
  simp only [decide_eq_false_iff_not]
  omega

/-- C11: `is_section_hashed` returns true if and only if bit 7 of the section
type is clear; for an 8-bit type that is exactly when the type is below 0x80.
It is true for the raw/compressed code and data types and the manifest type
(1..5) and false for the signature (0x80) and certificate (0x81) types, so
selecting the sections of any table with `is_section_hashed` keeps exactly
those whose type has bit 7 clear. -/
theorem is_section_hashed_iff_high_bit_clear :
    (∀ sec : tftf_section_descriptor,
      is_section_hashed sec = true ↔ sec.section_type.testBit 7 = false) ∧
    (∀ sec : tftf_section_descriptor, sec.section_type < 256 →
      (is_section_hashed sec = true ↔ sec.section_type < 128)) ∧
    (∀ sec : tftf_section_descriptor,
      sec.section_type ∈ [TFTF_SECTION_RAW_CODE, TFTF_SECTION_RAW_DATA,
        TFTF_SECTION_COMPRESSED_CODE, TFTF_SECTION_COMPRESSED_DATA,
        TFTF_SECTION_MANIFEST] →
      is_section_hashed sec = true) ∧
    (∀ sec : tftf_section_descriptor,
      sec.section_type ∈ [TFTF_SECTION_SIGNATURE, TFTF_SECTION_CERTIFICATE] →
      is_section_hashed sec = false) ∧
    (∀ (table : List tftf_section_descriptor) (sec : tftf_section_descriptor),
      sec ∈ table.filter is_section_hashed ↔
        sec ∈ table ∧ sec.section_type.testBit 7 = false) := by
  have key : ∀ sec : tftf_section_descriptor,
      is_section_hashed sec = true ↔ sec.section_type.testBit 7 = false := by
    intro sec
    rw [← and_bit7_eq_zero_iff]
    simp [is_section_hashed]
  refine ⟨key, fun sec h => ?_, fun sec h => ?_, fun sec h => ?_, fun table sec => ?_⟩
  · rw [key, testBit7_of_lt_256 _ h]
  · rw [key]
    simp only [List.mem_cons, List.mem_singleton, List.not_mem_nil, or_false] at h
    rcases h with h | h | h | h | h <;> rw [h] <;> decide
  · have : ¬ (is_section_hashed sec = true) := by
      rw [key]
      simp only [List.mem_cons, List.mem_singleton, List.not_mem_nil, or_false] at h
      rcases h with h | h <;> rw [h] <;> decide
    simpa using this
  · rw [List.mem_filter, key]

/-- C11 applied to a signature descriptor and to a code descriptor. -/
theorem is_section_hashed_iff_high_bit_clear_witness :
    is_section_hashed ⟨TFTF_SECTION_SIGNATURE, 0, 3, 360, 0xFFFFFFFF, 360⟩ = false ∧
    is_section_hashed ⟨TFTF_SECTION_RAW_CODE, 0, 1, 256, 0x1000, 256⟩ = true :=
  ⟨is_section_hashed_iff_high_bit_clear.2.2.2.1 _ (by decide),
   is_section_hashed_iff_high_bit_clear.2.2.1 _ (by decide)⟩

/-! ## Section range check and container layout -/

theorem TFTF_SECTION_SIZE_eq : TFTF_SECTION_SIZE = 20 := by decide

theorem offsetof_sections_eq : offsetof_sections = 112 := by decide

/-- The range check in terms of the descriptor's offset `o` from the start of
the header buffer: it reports "out of range" exactly when
`header_size ≤ o + 20`. -/
theorem is_section_out_of_range_iff (buffer header_size o : Nat) :
    is_section_out_of_range buffer header_size (buffer + o) = true ↔
      header_size ≤ o + 20 := by
  simp only [is_section_out_of_range, TFTF_SECTION_SIZE_eq, decide_eq_true_eq]
  push_cast
  omega

/-- C12, the code at a failing input: with `header_size` 512, the descriptor
`sections[19]` occupies bytes 492..511 of the header buffer, entirely within
its first 512 bytes, and `is_section_out_of_range` returns true for it; the
descriptor is one of the `CALC_MAX_TFTF_SECTIONS(512)` = 20 slots of the
table. -/
theorem is_section_out_of_range_last_slot :
    section_offset 19 = 492 ∧
    section_offset 19 + TFTF_SECTION_SIZE ≤ 512 ∧
    19 < CALC_MAX_TFTF_SECTIONS 512 ∧
    is_section_out_of_range 0x10000000 512 (0x10000000 + section_offset 19) = true := by
  decide

/-- C13: the packed layouts of `tftf.h`.  A section descriptor is 20 bytes:
a 1-byte type and a 3-byte class in its first word, then `section_id`,
`section_length`, `section_load_address` and `section_expanded_length` at
offsets 4, 8, 12 and 16.  The header members before the section table
(4-byte sentinel, `header_size`, 16-byte timestamp, 48-byte package name, six
`uint32_t` fields, 4 reserved words) take 112 bytes, so `sections[i]` starts at
byte 112 + 20 * i.  The signature block is 4 + 4 + 96 + 256 = 360 bytes. -/
theorem tftf_packed_layout :
    sizeof_packed tftf_section_descriptor_members = 20 ∧
    tftf_section_descriptor_members.map CType.bits = [8, 24, 32, 32, 32, 32] ∧
    (List.range 6).map (fun k => offsetof_packed tftf_section_descriptor_members k) =
      [0, 1, 4, 8, 12, 16] ∧
    tftf_header_members.map (fun m => m.bits / 8) =
      [4, 4, 16, 48, 4, 4, 4, 4, 4, 4, 16] ∧
    (List.range 11).map (fun k => offsetof_packed tftf_header_members k) =
      [0, 4, 8, 24, 72, 76, 80, 84, 88, 92, 96] ∧
    sizeof_packed tftf_header_members = 112 ∧
    (∀ i, section_offset i = 112 + 20 * i) ∧
    tftf_signature_members.map (fun m => m.bits / 8) = [4, 4, 96, 256] ∧
    sizeof_packed tftf_signature_members = 360 := by
  refine ⟨by decide, by decide, by decide, by decide, by decide, by decide, ?_, by decide,
    by decide⟩
  intro i
  simp only [section_offset, TFTF_SECTION_SIZE_eq, offsetof_sections_eq]
  omega

theorem CALC_MAX_TFTF_SECTIONS_eq (header_size : Nat) (hmin : 112 ≤ header_size)
    (hmax : header_size < 2 ^ 32) :
    CALC_MAX_TFTF_SECTIONS header_size = (header_size - 112) / 20 := by
  unfold CALC_MAX_TFTF_SECTIONS
  rw [TFTF_SECTION_SIZE_eq, offsetof_sections_eq]
  omega

theorem length_filter_range_le (p : Nat → Bool) (m : Nat) (hp : ∀ i, p i = true → i < m) :
    ∀ n, ((List.range n).filter p).length ≤ m := by
  intro n
  have hsub : ∀ i ∈ (List.range n).filter p, i ∈ List.range m := by
    intro i hi
    rw [List.mem_filter] at hi
    exact List.mem_range.mpr (hp i hi.2)
  have hnd : ((List.range n).filter p).Nodup := (List.nodup_range n).filter _
  have := (List.subperm_of_subset hnd hsub).length_le
  simpa using this

/-- C14: for every `header_size` in [512, 32768] and every section index `i`,
if `is_section_out_of_range` returns false for `&header->sections[i]` then
`i < CALC_MAX_TFTF_SECTIONS(header_size)` = (header_size - 112) / 20 and the
descriptor ends within the first `header_size` bytes of the header buffer;
hence among the first `n` descriptors of a table, for any `n`, the check
accepts at most `CALC_MAX_TFTF_SECTIONS(header_size)`. -/
theorem in_range_section_index_bound (buffer header_size i : Nat)
    (hmin : TFTF_HEADER_SIZE_MIN ≤ header_size) (hmax : header_size ≤ TFTF_HEADER_SIZE_MAX)
    (h : is_section_out_of_range buffer header_size (buffer + section_offset i) = false) :
    CALC_MAX_TFTF_SECTIONS header_size = (header_size - 112) / 20 ∧
    i < CALC_MAX_TFTF_SECTIONS header_size ∧
    section_offset i + TFTF_SECTION_SIZE ≤ header_size ∧
    ∀ n, ((List.range n).filter
      (fun j => !is_section_out_of_range buffer header_size
        (buffer + section_offset j))).length ≤ CALC_MAX_TFTF_SECTIONS header_size := by
  have hmin' : 512 ≤ header_size := hmin
  have hmax' : header_size ≤ 32768 := hmax
  have hcalc := CALC_MAX_TFTF_SECTIONS_eq header_size (by omega) (by omega)
  have bound : ∀ j, is_section_out_of_range buffer header_size
      (buffer + section_offset j) = false →
      j < CALC_MAX_TFTF_SECTIONS header_size ∧
        section_offset j + TFTF_SECTION_SIZE ≤ header_size := by
    intro j hj
    have h1 : ¬ (header_size ≤ section_offset j + 20) := by
      rw [← is_section_out_of_range_iff buffer]
      simp [hj]
    rw [hcalc, TFTF_SECTION_SIZE_eq]
    simp only [section_offset, TFTF_SECTION_SIZE_eq, offsetof_sections_eq] at h1 ⊢
    constructor <;> omega
  refine ⟨hcalc, (bound i h).1, (bound i h).2, ?_⟩
  apply length_filter_range_le
  intro j hj
  exact (bound j (by simpa using hj)).1

/-- C14 applied to `sections[18]` of a 512-byte header. -/
theorem in_range_section_index_bound_witness :
    CALC_MAX_TFTF_SECTIONS 512 = (512 - 112) / 20 ∧
    18 < CALC_MAX_TFTF_SECTIONS 512 ∧
    section_offset 18 + TFTF_SECTION_SIZE ≤ 512 ∧
    ∀ n, ((List.range n).filter
      (fun j => !is_section_out_of_range 0x10000000 512
        (0x10000000 + section_offset j))).length ≤ CALC_MAX_TFTF_SECTIONS 512 :=
  in_range_section_index_bound 0x10000000 512 18 (by decide) (by decide) (by decide)

/-! ## M-PHY fixup loops -/

theorem register_2_loop_eq (urc : Nat → Nat) (l : tsb_mphy_fixup)
    (hl : tsb_mphy_fixup_is_last l = true) :
    ∀ (pre : List tsb_mphy_fixup) (k : Nat),
      (∀ fu ∈ pre, tsb_mphy_fixup_is_last fu = false) →
      register_2_loop urc (pre ++ [l]) k =
        ((write_until_fail urc ((pre ++ [l]).map fixup_write) k).1,
          loop_exit_of (write_until_fail urc ((pre ++ [l]).map fixup_write) k).2
            (k + (pre.length + 1))) := by
  intro pre
  induction pre with
  | nil =>
    intro k _
    rw [List.nil_append, List.map_singleton, register_2_loop, write_until_fail,
      write_until_fail]
    by_cases h : result_code urc k = 0
    · simp [h, hl, loop_exit_of, write_call, fixup_write]
    · simp [h, loop_exit_of, write_call, fixup_write]
  | cons fu pre ih =>
    intro k hpre
    have hfu : tsb_mphy_fixup_is_last fu = false := hpre fu (List.mem_cons_self _ _)
    have ih' := ih (k + 1) (fun x hx => hpre x (List.mem_cons_of_mem _ hx))
    rw [List.cons_append, List.map_cons, register_2_loop, write_until_fail, ih']
    by_cases h : result_code urc k = 0
    · simp [h, hfu, write_call, fixup_write, Nat.add_comm, Nat.add_left_comm]
    · simp [h, loop_exit_of, write_call, fixup_write]

theorem register_1_loop_eq (debug_0720 : Nat) (urc : Nat → Nat) (l : tsb_mphy_fixup)
    (hl : tsb_mphy_fixup_is_last l = true) :
    ∀ (pre : List tsb_mphy_fixup) (k : Nat),
      (∀ fu ∈ pre, tsb_mphy_fixup_is_last fu = false) →
      register_1_loop debug_0720 urc (pre ++ [l]) k =
        ((write_until_fail urc ((pre ++ [l]).map (r1_fixup_write debug_0720)) k).1,
          loop_exit_of
            (write_until_fail urc ((pre ++ [l]).map (r1_fixup_write debug_0720)) k).2
            (k + (pre.length + 1))) := by
  intro pre
  induction pre with
  | nil =>
    intro k _
    rw [List.nil_append, List.map_singleton, register_1_loop, write_until_fail,
      write_until_fail]
    by_cases h : result_code urc k = 0 <;>
      by_cases hm : tsb_mphy_r1_fixup_is_magic l = true <;>
      simp [h, hm, hl, loop_exit_of, write_call, fixup_write, r1_fixup_write]
  | cons fu pre ih =>
    intro k hpre
    have hfu : tsb_mphy_fixup_is_last fu = false := hpre fu (List.mem_cons_self _ _)
    have ih' := ih (k + 1) (fun x hx => hpre x (List.mem_cons_of_mem _ hx))
    rw [List.cons_append, List.map_cons, register_1_loop, write_until_fail, ih']
    by_cases h : result_code urc k = 0 <;>
      by_cases hm : tsb_mphy_r1_fixup_is_magic fu = true <;>
      simp [h, hm, hfu, loop_exit_of, write_call, fixup_write, r1_fixup_write, Nat.add_comm,
        Nat.add_left_comm]

theorem write_until_fail_append (urc : Nat → Nat) :
    ∀ (a b : List (Nat × Nat × Nat)) (k : Nat),
      write_until_fail urc (a ++ b) k =
        match (write_until_fail urc a k).2 with
        | some rc => ((write_until_fail urc a k).1, some rc)
        | none =>
          ((write_until_fail urc a k).1 ++ (write_until_fail urc b (k + a.length)).1,
            (write_until_fail urc b (k + a.length)).2) := by
  intro a
  induction a with
  | nil => intro b k; simp [write_until_fail]
  | cons w ws ih =>
    intro b k
    rw [List.cons_append, write_until_fail, write_until_fail, ih b (k + 1)]
    by_cases h : result_code urc k = 0
    · simp only [h, ne_eq, not_true_eq_false, ↓reduceIte, List.length_cons]
      have hk : k + 1 + ws.length = k + (ws.length + 1) := by omega
      rw [hk]
      cases (write_until_fail urc ws (k + 1)).2 <;> simp
    · simp [h]

theorem write_until_fail_all_ok (urc : Nat → Nat) :
    ∀ (ws : List (Nat × Nat × Nat)) (k : Nat),
      (∀ j, j < ws.length → result_code urc (k + j) = 0) →
      write_until_fail urc ws k = (ws.map (fun w => write_call w 0), none) := by
  intro ws
  induction ws with
  | nil => intro k _; simp [write_until_fail]
  | cons w ws ih =>
    intro k h
    have h0 : result_code urc k = 0 := by simpa using h 0 (by simp)
    have ih' := ih (k + 1) (fun j hj => by
      have := h (j + 1) (by simpa using hj)
      rwa [show k + 1 + j = k + (j + 1) by omega])
    rw [write_until_fail, ih']
    simp [h0]

theorem write_until_fail_first_failure (urc : Nat → Nat) :
    ∀ (ws : List (Nat × Nat × Nat)) (k i : Nat) (w : Nat × Nat × Nat),
      ws[i]? = some w →
      (∀ j, j < i → result_code urc (k + j) = 0) →
      result_code urc (k + i) ≠ 0 →
      write_until_fail urc ws k =
        ((ws.take i).map (fun w => write_call w 0) ++
          [write_call w (result_code urc (k + i)), MphyCall.dbgprint,
           MphyCall.dbgprintx32 (result_code urc (k + i))],
         some (result_code urc (k + i))) := by
  intro ws
  induction ws with
  | nil => intro k i w hw; simp at hw
  | cons v ws ih =>
    intro k i w hw hz hnz
    cases i with
    | zero =>
      simp only [List.getElem?_cons_zero, Option.some.injEq] at hw
      subst hw
      rw [write_until_fail]
      simp only [Nat.add_zero] at hnz ⊢
      simp [hnz]
    | succ i =>
      have h0 : result_code urc k = 0 := by simpa using hz 0 (by omega)
      have hw' : ws[i]? = some w := by simpa using hw
      have ih' := ih (k + 1) i w hw'
        (fun j hj => by
          have := hz (j + 1) (by omega)
          rwa [show k + 1 + j = k + (j + 1) by omega])
        (by rwa [show k + 1 + i = k + (i + 1) by omega])
      rw [write_until_fail, ih']
      simp [h0, show k + 1 + i = k + (i + 1) by omega]

/-- `es2_fixup_mphy` behaves like the reference: after reading debug register
0x0720 it makes the writes of `mphy_write_sequence` in order until one reports a
non-zero code, which it returns; it returns 0 when none does. -/
theorem es2_fixup_mphy_eq (reg_0720 : Nat) (urc : Nat → Nat) :
    es2_fixup_mphy reg_0720 urc =
      (MphyCall.tsb_get_debug_reg 0x0720 (reg_0720 % 2 ^ 32) ::
          (write_until_fail urc (mphy_write_sequence reg_0720) 0).1,
        some ((write_until_fail urc (mphy_write_sequence reg_0720) 0).2.getD 0)) := by
  have h2 := fun k => register_2_loop_eq urc (TSB_MPHY_LAST_FIXUP 0x8099 5 0x50) (by decide)
    tsb_register_2_map_mphy_fixups.dropLast k (by decide)
  have h1 := fun k => register_1_loop_eq (reg_0720 % 2 ^ 32) urc
    (TSB_MPHY_LAST_FIXUP 0x8000 0 0x01) (by decide)
    tsb_register_1_map_mphy_fixups.dropLast k (by decide)
  have e2 : tsb_register_2_map_mphy_fixups.dropLast ++ [TSB_MPHY_LAST_FIXUP 0x8099 5 0x50] =
      tsb_register_2_map_mphy_fixups := by decide
  have e1 : tsb_register_1_map_mphy_fixups.dropLast ++ [TSB_MPHY_LAST_FIXUP 0x8000 0 0x01] =
      tsb_register_1_map_mphy_fixups := by decide
  have l2 : tsb_register_2_map_mphy_fixups.dropLast.length + 1 = 27 := by decide
  have l1 : tsb_register_1_map_mphy_fixups.dropLast.length + 1 = 28 := by decide
  rw [e2, l2] at h2
  rw [e1, l1] at h1
  have n2 : (tsb_register_2_map_mphy_fixups.map fixup_write).length = 27 := by decide
  have n1 : ∀ d, (tsb_register_1_map_mphy_fixups.map (r1_fixup_write d)).length = 28 := by
    intro d; simp only [List.length_map]; decide
  simp only [es2_fixup_mphy, h2, h1, mphy_write_sequence, write_until_fail_append,
    List.length_append, List.length_cons, List.length_nil, n2, n1]
  generalize write_until_fail urc (tsb_register_2_map_mphy_fixups.map fixup_write) = F2
  generalize write_until_fail urc
    (tsb_register_1_map_mphy_fixups.map (r1_fixup_write (reg_0720 % 2 ^ 32))) = F1
  simp only [Nat.zero_add, Nat.reduceAdd, write_until_fail]
  rcases F2 1 with ⟨t2, _ | rc2⟩ <;>
  simp only [loop_exit_of, Nat.reduceAdd] <;>
  rcases F1 30 with ⟨t1, _ | rc1⟩ <;>
  by_cases c0 : result_code urc 0 = 0 <;>
  by_cases c28 : result_code urc 28 = 0 <;>
  by_cases c29 : result_code urc 29 = 0 <;>
  by_cases c58 : result_code urc 58 = 0 <;>
  simp [c0, c28, c29, c58, write_call]

theorem mphy_write_sequence_length (reg_0720 : Nat) :
    (mphy_write_sequence reg_0720).length = 59 := by
  simp only [mphy_write_sequence, List.length_append, List.length_map, List.length_cons,
    List.length_nil]
  decide

/-- C15.  In each fixup table the final entry, and no earlier one, has
`TSB_MPHY_FIXUP_LAST` set (27 entries for the register 2 map, 28 for the
register 1 map).  Hence each `do ... while` loop of `es2_fixup_mphy`, started
on its table, never reads past the table's end, and when no write fails it
writes every entry once, in stored order, and leaves the loop.
`es2_fixup_mphy` always returns; when every write reports 0 it returns 0 after
making its 59 writes, the last of which sets `TSB_MPHY_MAP` to
`TSB_MPHY_MAP_NORMAL`; when the first write to report a non-zero code is the
`k`-th, it returns that code and that write is the last one it makes. -/
theorem es2_fixup_mphy_spec (reg_0720 : Nat) (urc : Nat → Nat) :
    (tsb_register_2_map_mphy_fixups.length = 27 ∧
      tsb_register_2_map_mphy_fixups.map tsb_mphy_fixup_is_last =
        List.replicate 26 false ++ [true]) ∧
    (tsb_register_1_map_mphy_fixups.length = 28 ∧
      tsb_register_1_map_mphy_fixups.map tsb_mphy_fixup_is_last =
        List.replicate 27 false ++ [true]) ∧
    (∀ k, (register_2_loop urc tsb_register_2_map_mphy_fixups k).2 ≠ LoopExit.past_end ∧
      (register_1_loop (reg_0720 % 2 ^ 32) urc tsb_register_1_map_mphy_fixups k).2 ≠
        LoopExit.past_end) ∧
    (∀ k, (∀ j, j < 27 → result_code urc (k + j) = 0) →
      register_2_loop urc tsb_register_2_map_mphy_fixups k =
        (tsb_register_2_map_mphy_fixups.map
            (fun fu => MphyCall.unipro_attr_local_write fu.attrid fu.value fu.select_index 0),
          LoopExit.finished (k + 27))) ∧
    (∀ k, (∀ j, j < 28 → result_code urc (k + j) = 0) →
      register_1_loop (reg_0720 % 2 ^ 32) urc tsb_register_1_map_mphy_fixups k =
        (tsb_register_1_map_mphy_fixups.map
            (fun fu => write_call (r1_fixup_write (reg_0720 % 2 ^ 32) fu) 0),
          LoopExit.finished (k + 28))) ∧
    (es2_fixup_mphy reg_0720 urc).2 ≠ none ∧
    ((∀ k, k < 59 → result_code urc k = 0) →
      es2_fixup_mphy reg_0720 urc =
          (MphyCall.tsb_get_debug_reg 0x0720 (reg_0720 % 2 ^ 32) ::
              (mphy_write_sequence reg_0720).map (fun w => write_call w 0),
            some 0) ∧
        (es2_fixup_mphy reg_0720 urc).1.getLast? =
          some (MphyCall.unipro_attr_local_write TSB_MPHY_MAP TSB_MPHY_MAP_NORMAL 0 0)) ∧
    (∀ k w, (mphy_write_sequence reg_0720)[k]? = some w →
      (∀ j, j < k → result_code urc j = 0) → result_code urc k ≠ 0 →
      es2_fixup_mphy reg_0720 urc =
        (MphyCall.tsb_get_debug_reg 0x0720 (reg_0720 % 2 ^ 32) ::
            (((mphy_write_sequence reg_0720).take k).map (fun w => write_call w 0) ++
              [write_call w (result_code urc k), MphyCall.dbgprint,
               MphyCall.dbgprintx32 (result_code urc k)]),
          some (result_code urc k))) := by
  have h2 := fun k => register_2_loop_eq urc (TSB_MPHY_LAST_FIXUP 0x8099 5 0x50) (by decide)
    tsb_register_2_map_mphy_fixups.dropLast k (by decide)
  have h1 := fun k => register_1_loop_eq (reg_0720 % 2 ^ 32) urc
    (TSB_MPHY_LAST_FIXUP 0x8000 0 0x01) (by decide)
    tsb_register_1_map_mphy_fixups.dropLast k (by decide)
  have e2 : tsb_register_2_map_mphy_fixups.dropLast ++ [TSB_MPHY_LAST_FIXUP 0x8099 5 0x50] =
      tsb_register_2_map_mphy_fixups := by decide
  have e1 : tsb_register_1_map_mphy_fixups.dropLast ++ [TSB_MPHY_LAST_FIXUP 0x8000 0 0x01] =
      tsb_register_1_map_mphy_fixups := by decide
  have l2 : tsb_register_2_map_mphy_fixups.dropLast.length + 1 = 27 := by decide
  have l1 : tsb_register_1_map_mphy_fixups.dropLast.length + 1 = 28 := by decide
  rw [e2, l2] at h2
  rw [e1, l1] at h1
  have hexit : ∀ (r : Option Nat) (k : Nat), loop_exit_of r k ≠ LoopExit.past_end := by
    intro r k; cases r <;> simp [loop_exit_of]
  refine ⟨⟨by decide, by decide⟩, ⟨by decide, by decide⟩, fun k => ?_, fun k hk => ?_,
    fun k hk => ?_, ?_, fun hall => ?_, fun k w hw hz hnz => ?_⟩
  · rw [h2, h1]
    exact ⟨hexit _ _, hexit _ _⟩
  · rw [h2, write_until_fail_all_ok urc _ k (fun j hj => hk j (by simpa using hj))]
    simp [loop_exit_of, write_call, fixup_write]
  · rw [h1, write_until_fail_all_ok urc _ k (fun j hj => hk j (by simpa using hj))]
    simp [loop_exit_of]
  · rw [es2_fixup_mphy_eq]
    simp
  · have hseq := write_until_fail_all_ok urc (mphy_write_sequence reg_0720) 0
      (fun j hj => by
        rw [mphy_write_sequence_length] at hj
        simpa using hall j hj)
    rw [es2_fixup_mphy_eq, hseq]
    refine ⟨by simp, ?_⟩
    have hlast : ∀ (a : MphyCall) (l : List MphyCall) (x : MphyCall),
        (a :: (l ++ [x])).getLast? = some x := by
      intro a l x
      rw [← List.cons_append, List.getLast?_concat]
    simp only [mphy_write_sequence, List.map_append, List.map_cons, List.map_nil,
      Option.getD_none, hlast, write_call]
  · have hseq := write_until_fail_first_failure urc (mphy_write_sequence reg_0720) 0 k w hw
      (fun j hj => by simpa using hz j hj) (by simpa using hnz)
    rw [es2_fixup_mphy_eq, hseq]
    simp

/-- C15 applied to a run in which every write succeeds and to one in which the
write of the "magic" register 1 fixup (write number 30) reports code 7. -/
theorem es2_fixup_mphy_spec_witness :
    (es2_fixup_mphy 0x2a (fun _ => 0)).1.getLast? =
      some (MphyCall.unipro_attr_local_write TSB_MPHY_MAP TSB_MPHY_MAP_NORMAL 0 0) ∧
    (es2_fixup_mphy 0x2a (fun k => if k = 30 then 7 else 0)).2 = some 7 :=
  ⟨((es2_fixup_mphy_spec 0x2a (fun _ => 0)).2.2.2.2.2.2.1 (fun _ _ => rfl)).2,
   congrArg Prod.snd
     ((es2_fixup_mphy_spec 0x2a (fun k => if k = 30 then 7 else 0)).2.2.2.2.2.2.2 30
       (0x8002, 21, 0) (by decide) (by decide) (by decide))⟩

end Bootrom
